import Mathlib

/-!
Verification development for the `lobby` repository's procedural layout and
collision core.  Numeric JS values are embedded as rationals (`ℚ`): every value
arising in the claims is produced by field arithmetic on config literals, and on
those the JS `Number` semantics (comparisons, `Math.min`/`max`/`abs`/`floor`/
`ceil`) agree with exact rational arithmetic.  Fallible / optional config reads
(`x ?? d`, `x || d`, `Array.isArray` guards) are embedded with `Option`.
-/

set_option autoImplicit false

namespace Lobby

/-- JS numeric `x || d` on a config read: the default replaces an absent value
and the falsy number `0`. -/
def jsOr (x d : ℚ) : ℚ :=
  if x = 0 then d else x

/-- JS numeric `x || d` where `x` itself may be absent. -/
def orDefault (v : Option ℚ) (d : ℚ) : ℚ :=
  match v with
  | some x => jsOr x d
  | none => d

/-- JS `x ?? d` (nullish coalescing): the default replaces only an absent value. -/
def nvl (v : Option ℚ) (d : ℚ) : ℚ :=
  v.getD d

/-- The library clamp used throughout the source:
`THREE.MathUtils.clamp(v, lo, hi) = Math.max(lo, Math.min(hi, v))`. -/
def jsClamp (v lo hi : ℚ) : ℚ :=
  max lo (min hi v)

/-- ASCII lower-casing of one character (`String.prototype.toLowerCase` on the
ASCII identifiers appearing in configs; side names and tags are ASCII). -/
def asciiLower (c : Char) : Char :=
  if c.toNat < 91 ∧ 64 < c.toNat then Char.ofNat (c.toNat + 32) else c

/-- JS `s.toLowerCase()` on ASCII strings, embedded structurally so that it is
kernel-executable (core `String.toLower` is not). -/
def jsToLower (s : String) : String :=
  ⟨s.data.map asciiLower⟩

/-- Whitespace test of JS `String.prototype.trim`. -/
def jsIsSpace (c : Char) : Bool :=
  decide (c = ' ') || decide (c = '\t') || decide (c = '\n') || decide (c = '\r')

/-- JS `s.trim()`, embedded structurally. -/
def jsTrim (s : String) : String :=
  ⟨((s.data.dropWhile jsIsSpace).reverse.dropWhile jsIsSpace).reverse⟩

/-! ## Collision resolver (src/unnamed/part_007)

The resolver mutates a `THREE.Vector3`-like `position` and returns a hit count.
The embedding threads the position explicitly and returns `(position, hits)`.
-/

/-- Position vector `{x, y, z}` as read and mutated by the resolver. -/
structure V3 where
  x : ℚ
  y : ℚ
  z : ℚ
deriving DecidableEq

/-- Collider record as read by `resolvePositionAgainstColliders`: the X/Z bounds
are read through `?? 0`, the Y bounds through a `Number.isFinite` guard (absent
means unbounded on that side), and `enabled === false` disables the collider.
A `none` entry of the collider list stands for a null array element, skipped by
the `if (!collider)` guard. -/
structure JCollider where
  minX : Option ℚ
  maxX : Option ℚ
  minZ : Option ℚ
  maxZ : Option ℚ
  minY : Option ℚ
  maxY : Option ℚ
  enabled : Bool
deriving DecidableEq

/-- part_007 `isInsideExpandedBox(position, radius, collider)`: strict interior
test against the collider's XZ rectangle expanded by `radius` on all sides. -/
def isInsideExpandedBox (p : V3) (radius : ℚ) (c : JCollider) : Bool :=
  let minX := nvl c.minX 0 - radius
  let maxX := nvl c.maxX 0 + radius
  let minZ := nvl c.minZ 0 - radius
  let maxZ := nvl c.maxZ 0 + radius
  decide (minX < p.x) && decide (p.x < maxX) && decide (minZ < p.z) && decide (p.z < maxZ)

/-- part_007 `resolveOne(position, radius, collider)`: snap the position to the
closest expanded edge; the `if`/`else if` chain resolves distance ties in the
source order X-min, X-max, Z-min, Z-max. -/
def resolveOne (p : V3) (radius : ℚ) (c : JCollider) : V3 :=
  let minX := nvl c.minX 0 - radius
  let maxX := nvl c.maxX 0 + radius
  let minZ := nvl c.minZ 0 - radius
  let maxZ := nvl c.maxZ 0 + radius
  let distToMinX := |p.x - minX|
  let distToMaxX := |maxX - p.x|
  let distToMinZ := |p.z - minZ|
  let distToMaxZ := |maxZ - p.z|
  let smallest := min (min (min distToMinX distToMaxX) distToMinZ) distToMaxZ
  if smallest = distToMinX then { p with x := minX }
  else if smallest = distToMaxX then { p with x := maxX }
  else if smallest = distToMinZ then { p with z := minZ }
  else { p with z := maxZ }

/-- Y-range filter of the main loop: with
`minY = Number.isFinite(collider.minY) ? collider.minY : -Infinity` (and dually
for `maxY`), a collider is skipped when `sampleY < minY || sampleY > maxY`. -/
def colliderInYRange (sampleY : ℚ) (c : JCollider) : Bool :=
  (match c.minY with
   | some v => decide (v ≤ sampleY)
   | none => true) &&
  (match c.maxY with
   | some v => decide (sampleY ≤ v)
   | none => true)

/-- The per-collider body of one pass: skip null, disabled and Y-filtered
entries, and correct the running position with `resolveOne` whenever it lies
strictly inside the expanded rectangle, counting the hit. -/
def resolveScanStep (radius sampleY : ℚ) (acc : V3 × ℕ) (oc : Option JCollider) :
    V3 × ℕ :=
  match oc with
  | none => acc
  | some c =>
    if c.enabled = false then acc
    else if colliderInYRange sampleY c = false then acc
    else if isInsideExpandedBox acc.1 radius c = false then acc
    else (resolveOne acc.1 radius c, acc.2 + 1)

/-- One pass of `resolvePositionAgainstColliders`: scan the collider list once.
Returns the corrected position and the number of corrections made in the pass. -/
def resolvePass (radius sampleY : ℚ) (colliders : List (Option JCollider)) (p : V3) :
    V3 × ℕ :=
  colliders.foldl (resolveScanStep radius sampleY) (p, 0)

/-- The `for (let pass = 0; pass < 3; ...)` loop: up to `fuel` passes, breaking
as soon as a pass makes no correction; `hits` accumulates across passes. -/
def resolveLoop (radius sampleY : ℚ) (colliders : List (Option JCollider)) :
    ℕ → V3 → ℕ → V3 × ℕ
  | 0, p, hits => (p, hits)
  | fuel + 1, p, hits =>
    let r := resolvePass radius sampleY colliders p
    if r.2 = 0 then (p, hits)
    else resolveLoop radius sampleY colliders fuel r.1 (hits + r.2)

/-- part_007 `resolvePositionAgainstColliders({position, colliders, radius, sampleY})`.
An empty collider list returns immediately with no correction. -/
def resolvePositionAgainstColliders (p : V3) (colliders : List (Option JCollider))
    (radius sampleY : ℚ) : V3 × ℕ :=
  if colliders.isEmpty then (p, 0)
  else resolveLoop radius sampleY colliders 3 p 0

/-- Modelled from the spec wording of the snap step: "snap the position to the
nearest of the four expanded edges (ties broken by axis order X-min, X-max,
Z-min, Z-max — first smallest-distance wins)". -/
def snapNearestEdgeSpec (p : V3) (radius : ℚ) (c : JCollider) : V3 :=
  let minX := nvl c.minX 0 - radius
  let maxX := nvl c.maxX 0 + radius
  let minZ := nvl c.minZ 0 - radius
  let maxZ := nvl c.maxZ 0 + radius
  let dXMin := |p.x - minX|
  let dXMax := |maxX - p.x|
  let dZMin := |p.z - minZ|
  let dZMax := |maxZ - p.z|
  if dXMin ≤ dXMax ∧ dXMin ≤ dZMin ∧ dXMin ≤ dZMax then { p with x := minX }
  else if dXMax ≤ dZMin ∧ dXMax ≤ dZMax then { p with x := maxX }
  else if dZMin ≤ dZMax then { p with z := minZ }
  else { p with z := maxZ }

/-- Spec-side per-collider body: identical scan and filtering, but snapping
with the spec-worded nearest-edge rule. -/
def resolveScanStepSpec (radius sampleY : ℚ) (acc : V3 × ℕ) (oc : Option JCollider) :
    V3 × ℕ :=
  match oc with
  | none => acc
  | some c =>
    if c.enabled = false then acc
    else if colliderInYRange sampleY c = false then acc
    else if isInsideExpandedBox acc.1 radius c = false then acc
    else (snapNearestEdgeSpec acc.1 radius c, acc.2 + 1)

/-- Spec-side pass. -/
def resolvePassSpec (radius sampleY : ℚ) (colliders : List (Option JCollider)) (p : V3) :
    V3 × ℕ :=
  colliders.foldl (resolveScanStepSpec radius sampleY) (p, 0)

/-- Spec-side pass loop (at most the given number of passes, early exit on a
correction-free pass). -/
def resolveLoopSpec (radius sampleY : ℚ) (colliders : List (Option JCollider)) :
    ℕ → V3 → ℕ → V3 × ℕ
  | 0, p, hits => (p, hits)
  | fuel + 1, p, hits =>
    let r := resolvePassSpec radius sampleY colliders p
    if r.2 = 0 then (p, hits)
    else resolveLoopSpec radius sampleY colliders fuel r.1 (hits + r.2)

/-- Modelled from the spec wording of `CollisionResolver.resolve`: at most 3
passes over the enabled, Y-matching colliders, snapping to the nearest expanded
edge, stopping early when a pass makes no correction. -/
def resolveSpec (p : V3) (colliders : List (Option JCollider)) (radius sampleY : ℚ) :
    V3 × ℕ :=
  if colliders.isEmpty then (p, 0)
  else resolveLoopSpec radius sampleY colliders 3 p 0

/-- Heap view of the resolver call: the mutable state it can reach is the
position vector and the collider array.  The source assigns only `position.x`
and `position.z`; the embedding of its effect accordingly rebuilds the store
with the same collider list. -/
structure ResolveStore where
  position : V3
  colliders : List (Option JCollider)
deriving DecidableEq

/-- Effect of `resolvePositionAgainstColliders` on the whole reachable store. -/
def resolveStore (s : ResolveStore) (radius sampleY : ℚ) : ResolveStore × ℕ :=
  let r := resolvePositionAgainstColliders s.position s.colliders radius sampleY
  (⟨r.1, s.colliders⟩, r.2)

/-! ## Scene layout: navigation bounds, walls, annexes (src/unnamed/part_003) -/

/-- Room size triple `[w, h, d]` (width, height, depth). -/
structure Size3 where
  w : ℚ
  h : ℚ
  d : ℚ
deriving DecidableEq

/-- Walkable XZ rectangle (`NavigationBounds`), also the shape of protected
zones and of wall collider rectangles in the 2D overlap test. -/
structure Bounds where
  minX : ℚ
  maxX : ℚ
  minZ : ℚ
  maxZ : ℚ
deriving DecidableEq

/-- The data-model invariant on navigation bounds: `minX < maxX ∧ minZ < maxZ`. -/
def validBounds (b : Bounds) : Prop :=
  b.minX < b.maxX ∧ b.minZ < b.maxZ

instance (b : Bounds) : Decidable (validBounds b) :=
  inferInstanceAs (Decidable (b.minX < b.maxX ∧ b.minZ < b.maxZ))

/-- Fallback rectangle of part_003 `getRoomBounds`:
`halfW = (size[0] || 30) * 0.5 - margin`, `halfD = (size[2] || 30) * 0.5 - margin`. -/
def defaultRoomRect (size : Size3) (margin : ℚ) : Bounds :=
  let halfW := jsOr size.w 30 * (1/2) - margin
  let halfD := jsOr size.d 30 * (1/2) - margin
  ⟨-halfW, halfW, -halfD, halfD⟩

/-- part_003 `getRoomBounds(size, margin, overrideBounds)`: a finite override
with `minX < maxX` and `minZ < maxZ` is returned verbatim, anything else falls
back to the room rectangle shrunk by `margin`.  On ℚ every value is finite, so
the `Number.isFinite` guards reduce to the ordering checks. -/
def getRoomBounds (size : Size3) (margin : ℚ) (override : Option Bounds) : Bounds :=
  match override with
  | some b => if b.minX < b.maxX ∧ b.minZ < b.maxZ then b else defaultRoomRect size margin
  | none => defaultRoomRect size margin

/-- part_003 `setRoomBounds(nextBounds)`: re-resolve the navigation bounds
through `getRoomBounds(roomSize, 1.4, nextBounds)`. -/
def setRoomBounds (size : Size3) (next : Option Bounds) : Bounds :=
  getRoomBounds size (7/5) next

/-- part_003 `mergeBounds(into, next)`: component-wise min of minima and max of
maxima.  The `if (!into || !next)` null guard never fires at the call sites
(both arguments are freshly built objects) and is dropped. -/
def mergeBounds (into next : Bounds) : Bounds :=
  ⟨min into.minX next.minX, max into.maxX next.maxX,
   min into.minZ next.minZ, max into.maxZ next.maxZ⟩

/-- part_003 `boundsOverlap2D(a, b)`: closed 2D AABB overlap. -/
def boundsOverlap2D (a b : Bounds) : Bool :=
  decide (a.minX ≤ b.maxX) && decide (b.minX ≤ a.maxX) &&
  decide (a.minZ ≤ b.maxZ) && decide (b.minZ ≤ a.maxZ)

/-- Theme floorplan config as read by `applyFloorplanBounds` (the annex list is
consumed separately by the annex builder). -/
structure ThemeFloorplanCfg where
  navigationBounds : Option Bounds
  navigationProfileBounds : Option Bounds
  extendNavigation : Option Bool
deriving DecidableEq

/-- The explicit override resolution
`themeFloorplan?.navigationProfile?.bounds || themeFloorplan?.navigationBounds || null`. -/
def explicitOverride (tf : Option ThemeFloorplanCfg) : Option Bounds :=
  match tf with
  | none => none
  | some t =>
    match t.navigationProfileBounds with
    | some b => some b
    | none => t.navigationBounds

/-- part_003 `applyFloorplanBounds(themeFloorplan)`.  `baseRoomBounds` is the
rectangle computed at load, `baseFloorplanBounds` / `themeFloorplanBounds` the
inset rectangles returned by the annex builder for the base and theme
floorplans.  With an explicit override the union logic is skipped entirely;
otherwise base annex rectangles are always merged and theme annex rectangles
are merged unless `extendNavigation === false`; the result goes through
`setRoomBounds`. -/
def applyFloorplanBounds (size : Size3) (baseRoomBounds : Bounds)
    (baseFloorplanBounds themeFloorplanBounds : List Bounds)
    (tf : Option ThemeFloorplanCfg) : Bounds :=
  match explicitOverride tf with
  | some b => setRoomBounds size (some b)
  | none =>
    let merged := baseFloorplanBounds.foldl mergeBounds baseRoomBounds
    let merged2 :=
      if (tf.bind ThemeFloorplanCfg.extendNavigation) ≠ some false then
        themeFloorplanBounds.foldl mergeBounds merged
      else merged
    setRoomBounds size (some merged2)

/-- Tagged scene collider as pushed by part_003 `addColliderRect`. -/
structure SceneCollider where
  tag : String
  id : String
  minX : ℚ
  maxX : ℚ
  minZ : ℚ
  maxZ : ℚ
  minY : ℚ
  maxY : ℚ
deriving DecidableEq

/-- part_003 `addColliderRect({centerX, centerZ, sizeX, sizeZ, minY, maxY, tag, id})`:
a rectangle with `sizeX <= 0 || sizeZ <= 0` is rejected silently, otherwise the
center/size pair is pushed as min/max extents. -/
def addColliderRect (colliders : List SceneCollider)
    (centerX centerZ sizeX sizeZ minY maxY : ℚ) (tag id : String) : List SceneCollider :=
  if sizeX ≤ 0 ∨ sizeZ ≤ 0 then colliders
  else
    colliders ++
      [⟨tag, id, centerX - sizeX * (1/2), centerX + sizeX * (1/2),
        centerZ - sizeZ * (1/2), centerZ + sizeZ * (1/2), minY, maxY⟩]

/-- Front entrance configuration (`roomConfig.frontEntrance`), with
`enabled = Boolean(frontEntrance.enabled)`. -/
structure FrontEntranceCfg where
  enabled : Bool
  width : Option ℚ
  height : Option ℚ
  centerX : Option ℚ
deriving DecidableEq

/-- Visual wall panel (plane mesh) of the front wall: width/height of the plane
and its position. -/
structure WallPanel where
  id : String
  width : ℚ
  height : ℚ
  x : ℚ
  y : ℚ
  z : ℚ
deriving DecidableEq

/-- part_003 `loadScene` front (south) wall construction, lines 1517-1610.
Returns the panels built and the colliders registered (through
`addColliderRect`).  With the entrance disabled a single full-width wall and
collider are built; otherwise a top lintel and two jambs are built, with one
collider per jamb and none across the opening. -/
def buildFrontWall (width height depth floorY wallThickness : ℚ)
    (fe : FrontEntranceCfg) : List WallPanel × List SceneCollider :=
  let frontDoorWidth := jsClamp (nvl fe.width 4.2) 1.6 (max 1.6 (width - 1.6))
  let frontDoorHeight := jsClamp (nvl fe.height 3.4) 2.2 (max 2.2 (height - 0.4))
  let frontDoorCenterX := jsClamp (nvl fe.centerX 0)
      (-width * (1/2) + frontDoorWidth * (1/2) + 0.4)
      (width * (1/2) - frontDoorWidth * (1/2) - 0.4)
  if fe.enabled = false then
    ([⟨"south_wall", width, height, 0, floorY + height * (1/2), depth * (1/2)⟩],
     addColliderRect [] 0 (depth * (1/2)) width wallThickness
       (floorY + 1/50) (floorY + height - 1/25) "room" "south_wall")
  else
    let topHeight := max (1/5) (height - frontDoorHeight)
    let leftWidth := max (1/5) (frontDoorCenterX - frontDoorWidth * (1/2) - (-width * (1/2)))
    let rightWidth := max (1/5) (width * (1/2) - (frontDoorCenterX + frontDoorWidth * (1/2)))
    let panels : List WallPanel :=
      [⟨"south_wall_top", width, topHeight,
        0, floorY + frontDoorHeight + topHeight * (1/2), depth * (1/2)⟩,
       ⟨"south_wall_left_panel", leftWidth, frontDoorHeight,
        -width * (1/2) + leftWidth * (1/2), floorY + frontDoorHeight * (1/2), depth * (1/2)⟩,
       ⟨"south_wall_right_panel", rightWidth, frontDoorHeight,
        frontDoorCenterX + frontDoorWidth * (1/2) + rightWidth * (1/2),
        floorY + frontDoorHeight * (1/2), depth * (1/2)⟩]
    let withLeft := addColliderRect [] (-width * (1/2) + leftWidth * (1/2)) (depth * (1/2))
      leftWidth wallThickness (floorY + 1/50) (floorY + frontDoorHeight - 1/50)
      "room" "south_wall_left"
    let colliders := addColliderRect withLeft
      (frontDoorCenterX + frontDoorWidth * (1/2) + rightWidth * (1/2)) (depth * (1/2))
      rightWidth wallThickness (floorY + 1/50) (floorY + frontDoorHeight - 1/50)
      "room" "south_wall_right"
    (panels, colliders)

/-- Annex configuration entry of `roomConfig.floorplan.annexes` (part_003
`createAnnex`); material overrides are rendering-only and omitted. -/
structure AnnexCfg where
  id : Option String
  size : Option Size3
  position : Option V3
  openSide : Option String
  navigationInset : Option ℚ
  enabled : Bool
deriving DecidableEq

/-- part_003 `normalizeOpenSide(value)`: trim + lowercase, then one of the four
side names, else the empty string. -/
def normalizeOpenSide (value : Option String) : String :=
  let side := jsToLower (jsTrim (value.getD ""))
  if side = "north" ∨ side = "south" ∨ side = "east" ∨ side = "west" then side else ""

/-- Resolved annex width: `Math.max(2.2, Number(size[0]) || 8)` (default size
array `[8, 6, 8]`). -/
def annexWidth (cfg : AnnexCfg) : ℚ :=
  max (11/5) (jsOr (cfg.size.getD ⟨8, 6, 8⟩).w 8)

/-- Resolved annex height: `Math.max(2.2, Number(size[1]) || 6)`. -/
def annexHeight (cfg : AnnexCfg) : ℚ :=
  max (11/5) (jsOr (cfg.size.getD ⟨8, 6, 8⟩).h 6)

/-- Resolved annex depth: `Math.max(2.2, Number(size[2]) || 8)`. -/
def annexDepth (cfg : AnnexCfg) : ℚ :=
  max (11/5) (jsOr (cfg.size.getD ⟨8, 6, 8⟩).d 8)

/-- Annex center (`Number(position[i]) || 0` is the identity on rationals). -/
def annexCenter (cfg : AnnexCfg) : V3 :=
  cfg.position.getD ⟨0, 0, 0⟩

/-- Thin world-space collider rectangle of one candidate annex wall, exactly as
`wallBounds` is computed in `createAnnex.addWall`; sides other than the four
names yield a degenerate unused rectangle. -/
def annexWallRect (cfg : AnnexCfg) (wallThickness : ℚ) (side : String) : Bounds :=
  let w := annexWidth cfg
  let d := annexDepth cfg
  let cx := (annexCenter cfg).x
  let cz := (annexCenter cfg).z
  if side = "north" then
    ⟨cx - w * (1/2), cx + w * (1/2),
     cz - d * (1/2) - wallThickness * (1/2), cz - d * (1/2) + wallThickness * (1/2)⟩
  else if side = "south" then
    ⟨cx - w * (1/2), cx + w * (1/2),
     cz + d * (1/2) - wallThickness * (1/2), cz + d * (1/2) + wallThickness * (1/2)⟩
  else if side = "east" then
    ⟨cx + w * (1/2) - wallThickness * (1/2), cx + w * (1/2) + wallThickness * (1/2),
     cz - d * (1/2), cz + d * (1/2)⟩
  else if side = "west" then
    ⟨cx - w * (1/2) - wallThickness * (1/2), cx - w * (1/2) + wallThickness * (1/2),
     cz - d * (1/2), cz + d * (1/2)⟩
  else ⟨0, 0, 0, 0⟩

/-- Group name of the annex: `annexConfig?.id || ("annex-" + (index + 1))`. -/
def annexName (cfg : AnnexCfg) (index : ℕ) : String :=
  match cfg.id with
  | some s => s
  | none => "annex-" ++ toString (index + 1)

/-- The collider `createAnnex.addWall` registers for a surviving wall of the
given side (the argument tuple passed to `addColliderRect`). -/
def annexSideCollider (cfg : AnnexCfg) (index : ℕ) (tag : String)
    (floorY wallThickness : ℚ) (side : String) : SceneCollider :=
  let w := annexWidth cfg
  let h := annexHeight cfg
  let d := annexDepth cfg
  let cx := (annexCenter cfg).x
  let baseY := floorY + (annexCenter cfg).y
  let cz := (annexCenter cfg).z
  let geom : ℚ × ℚ × ℚ × ℚ :=
    if side = "north" then (cx, cz - d * (1/2), w, wallThickness)
    else if side = "south" then (cx, cz + d * (1/2), w, wallThickness)
    else if side = "east" then (cx + w * (1/2), cz, wallThickness, d)
    else (cx - w * (1/2), cz, wallThickness, d)
  ⟨tag, annexName cfg index ++ "_" ++ side,
   geom.1 - geom.2.2.1 * (1/2), geom.1 + geom.2.2.1 * (1/2),
   geom.2.1 - geom.2.2.2 * (1/2), geom.2.1 + geom.2.2.2 * (1/2),
   baseY + 1/50, baseY + h - 1/25⟩

/-- One `addWall(side)` call of `createAnnex`: skip the open side, skip a wall
whose thin rectangle overlaps any protected zone, otherwise record the wall and
register its collider through `addColliderRect`. -/
def createAnnexStep (cfg : AnnexCfg) (index : ℕ) (tag : String) (zones : List Bounds)
    (floorY wallThickness : ℚ) (acc : List String × List SceneCollider)
    (side : String) : List String × List SceneCollider :=
  if side = normalizeOpenSide cfg.openSide then acc
  else if zones.any (fun z => boundsOverlap2D (annexWallRect cfg wallThickness side) z) then acc
  else
    let w := annexWidth cfg
    let h := annexHeight cfg
    let d := annexDepth cfg
    let cx := (annexCenter cfg).x
    let baseY := floorY + (annexCenter cfg).y
    let cz := (annexCenter cfg).z
    let geom : ℚ × ℚ × ℚ × ℚ :=
      if side = "north" then (cx, cz - d * (1/2), w, wallThickness)
      else if side = "south" then (cx, cz + d * (1/2), w, wallThickness)
      else if side = "east" then (cx + w * (1/2), cz, wallThickness, d)
      else (cx - w * (1/2), cz, wallThickness, d)
    (acc.1 ++ [side],
     addColliderRect acc.2 geom.1 geom.2.1 geom.2.2.1 geom.2.2.2
       (baseY + 1/50) (baseY + h - 1/25) tag (annexName cfg index ++ "_" ++ side))

/-- Whether a candidate wall survives in `createAnnex.addWall`: it is not the
open side and its thin rectangle overlaps no protected zone. -/
def annexWallKept (cfg : AnnexCfg) (zones : List Bounds) (wallThickness : ℚ)
    (side : String) : Bool :=
  !(decide (side = normalizeOpenSide cfg.openSide)) &&
  !(zones.any (fun z => boundsOverlap2D (annexWallRect cfg wallThickness side) z))

/-- Result of building one annex: the walls that were actually built (in the
source call order north, south, east, west), the colliders registered, and the
inset navigable rectangle returned to the caller. -/
structure AnnexResult where
  walls : List String
  colliders : List SceneCollider
  nav : Bounds
deriving DecidableEq

/-- part_003 `createAnnex(annexConfig, index, tag)` restricted to its
collision-relevant effects. -/
def createAnnex (cfg : AnnexCfg) (index : ℕ) (tag : String) (zones : List Bounds)
    (floorY wallThickness : ℚ) : AnnexResult :=
  let w := annexWidth cfg
  let d := annexDepth cfg
  let cx := (annexCenter cfg).x
  let cz := (annexCenter cfg).z
  let inset := jsClamp (nvl cfg.navigationInset (21/20)) (7/20)
    (max (7/20) (min w d * (9/20)))
  let r := ["north", "south", "east", "west"].foldl
    (createAnnexStep cfg index tag zones floorY wallThickness) ([], [])
  ⟨r.1, r.2,
   ⟨cx - w * (1/2) + inset, cx + w * (1/2) - inset,
    cz - d * (1/2) + inset, cz + d * (1/2) - inset⟩⟩

/-! ## Catalog room system (src/src/systems/catalog/catalogRoomSystem.js) -/

/-- Feed item fields the layout logic reads: `id` for id filtering, `tags` for
tag filtering, `image` for the asynchronous texture load (`if (item.image)` is
JS truthiness, so an empty string counts as no image).  Display-only fields
(title, url, price) are omitted. -/
structure CatalogItem where
  id : String
  tags : List String
  image : Option String
deriving DecidableEq

/-- JS truthiness of `item.image`. -/
def itemHasImage (it : CatalogItem) : Bool :=
  match it.image with
  | some s => decide (s ≠ "")
  | none => false

/-- Per-room theme filter (`normalizeFilter` replaces non-array fields by `[]`,
embedded as `Option.getD []`). -/
structure ItemFilter where
  itemIds : Option (List String)
  tagsAny : Option (List String)
deriving DecidableEq

/-- catalogRoomSystem.js `filterItems(items, filter, maxItems)`.
`items.filter(Boolean)` drops only non-object entries, which the typed feed
cannot contain, so it is the identity here.  The limit is
`Number.isFinite(maxItems) && maxItems > 0 ? maxItems : 6`, then
`selected.slice(0, limit)`. -/
def filterItems (items : List CatalogItem) (f : ItemFilter) (maxItems : Option ℕ) :
    List CatalogItem :=
  let safeItems := items
  if safeItems.isEmpty then []
  else
    let ids := f.itemIds.getD []
    let tags := f.tagsAny.getD []
    let selected :=
      if ids.isEmpty = false then
        safeItems.filter (fun it => ids.contains it.id)
      else if tags.isEmpty = false then
        let lower := tags.map jsToLower
        safeItems.filter (fun it => it.tags.any (fun tg => lower.contains (jsToLower tg)))
      else safeItems
    let chosen := if selected.isEmpty then safeItems else selected
    let limit : ℕ :=
      match maxItems with
      | some m => if 0 < m then m else 6
      | none => 6
    chosen.take limit

/-- Card geometry config (`rooms.<id>.card`). -/
structure CatCardCfg where
  width : Option ℚ
  height : Option ℚ
deriving DecidableEq

/-- Layout config (`rooms.<id>.layout`). -/
structure CatLayoutCfg where
  maxItems : Option ℕ
  wallMargin : Option ℚ
  horizontalGap : Option ℚ
  displayY : Option ℚ
  cardOffset : Option ℚ
deriving DecidableEq

/-- Catalog room config (`catalogConfig.rooms.<id>`), restricted to the fields
the layout and collider logic reads. -/
structure CatRoomCfg where
  size : Option Size3
  origin : Option V3
  expansionStep : Option V3
  connectorDoorWidth : Option ℚ
  connectorDoorHeight : Option ℚ
  card : Option CatCardCfg
  layout : Option CatLayoutCfg
deriving DecidableEq

/-- The two catalog room categories. -/
inductive RoomId
  | shop
  | projects
deriving DecidableEq

/-- `computeWallSlots.buildLine(length)`: centered slot coordinates with stride
`cardWidth + horizontalGap` inside `length - 2 * wallMargin`.  ℚ division is
total with `x / 0 = 0`; JS would produce an unbounded count for a zero stride,
a configuration no claim depends on (the default stride is `1.87`). -/
def buildLine (cardWidth horizontalGap wallMargin length : ℚ) : List ℚ :=
  let usable := max 0 (length - wallMargin * 2)
  let stride := cardWidth + horizontalGap
  let count := (max 0 ⌊(usable + horizontalGap) / stride⌋).toNat
  if count = 0 then []
  else
    let start := -(((count : ℚ) - 1) * stride) * (1/2)
    (List.range count).map (fun i => start + (i : ℚ) * stride)

/-- Wall slot: wall name, position, and the rotation stored as a rational
multiple of π (`rotPi = 1/2` means `rotationY = π/2`). -/
structure WallSlot where
  wall : String
  x : ℚ
  y : ℚ
  z : ℚ
  rotPi : ℚ
deriving DecidableEq

/-- catalogRoomSystem.js `computeWallSlots(roomId, roomNode)` on a node whose
config is the raw room config (as built by `computeRoomCapacity`'s temp node:
`size` falls back to `[8.6, 4.6, 9.6]`, `_derived.cardOffset` to
`layout.cardOffset ?? 0.08`).  Slots are back wall, then outer wall, then front
wall. -/
def computeWallSlots (roomId : RoomId) (cfg : CatRoomCfg) : List WallSlot :=
  let size := cfg.size.getD ⟨8.6, 4.6, 9.6⟩
  let cardWidth := orDefault (cfg.card.bind CatCardCfg.width) 1.45
  let horizontalGap := nvl (cfg.layout.bind CatLayoutCfg.horizontalGap) (21/50)
  let wallMargin := nvl (cfg.layout.bind CatLayoutCfg.wallMargin) (7/10)
  let y := ((cfg.layout.bind CatLayoutCfg.displayY)).getD
    (jsClamp (size.h * (14/25)) (11/5) (29/10))
  let offset := nvl (cfg.layout.bind CatLayoutCfg.cardOffset) (2/25)
  let back := (buildLine cardWidth horizontalGap wallMargin size.w).map
    (fun x => WallSlot.mk "back" x y (-size.d * (1/2) + offset) 0)
  let outer := (buildLine cardWidth horizontalGap wallMargin size.d).map
    (fun z => WallSlot.mk "outer"
      (if roomId = .shop then -size.w * (1/2) + offset else size.w * (1/2) - offset)
      y z (if roomId = .shop then 1/2 else -(1/2)))
  let front := (buildLine cardWidth horizontalGap wallMargin size.w).map
    (fun x => WallSlot.mk "front" x y (size.d * (1/2) - offset) 1)
  back ++ outer ++ front

/-- catalogRoomSystem.js `computeRoomCapacity(roomId, config)`: the number of
wall slots of one room built from the raw config. -/
def computeRoomCapacity (roomId : RoomId) (cfg : CatRoomCfg) : ℕ :=
  (computeWallSlots roomId cfg).length

/-- The room-count computation of `buildRoomCards`:
`safeCapacity = Math.max(1, capacity)` and
`roomCount = Math.max(1, Math.ceil(items.length / safeCapacity))`. -/
def roomCountFor (itemCount capacity : ℕ) : ℕ :=
  let safeCapacity := max 1 capacity
  max 1 (Int.toNat ⌈(itemCount : ℚ) / (safeCapacity : ℚ)⌉)

/-- Collider record pushed by `CatalogRoomSystem.addCollider` (no validity
guard of any kind). -/
structure CatCollider where
  roomId : RoomId
  roomIndex : ℕ
  minX : ℚ
  maxX : ℚ
  minZ : ℚ
  maxZ : ℚ
  minY : ℚ
  maxY : ℚ
deriving DecidableEq

/-- `CatalogRoomSystem.addCollider(roomId, roomIndex, centerX, centerZ, sizeX,
sizeZ, minY, maxY)`: center/size converted to extents and pushed verbatim. -/
def catAddCollider (roomId : RoomId) (roomIndex : ℕ)
    (centerX centerZ sizeX sizeZ minY maxY : ℚ) : CatCollider :=
  ⟨roomId, roomIndex,
   centerX - sizeX * (1/2), centerX + sizeX * (1/2),
   centerZ - sizeZ * (1/2), centerZ + sizeZ * (1/2), minY, maxY⟩

/-- The data-model collider invariant (`min ≤ max` per axis, positive XZ area,
which for center/size construction is `minX < maxX ∧ minZ < maxZ`). -/
def validCatCollider (c : CatCollider) : Prop :=
  c.minX < c.maxX ∧ c.minZ < c.maxZ ∧ c.minY ≤ c.maxY

instance (c : CatCollider) : Decidable (validCatCollider c) :=
  inferInstanceAs (Decidable (c.minX < c.maxX ∧ c.minZ < c.maxZ ∧ c.minY ≤ c.maxY))

/-- Colliders pushed by `createRoomShell.addDepthWallColliders(zLocal, hasDoor)`:
one full-width wall collider without a connector doorway, or a left and a right
segment collider beside the doorway. -/
def shellDepthWallColliders (roomId : RoomId) (roomIndex : ℕ)
    (gx gy gz w doorW doorH wallThickness zLocal : ℚ) (hasDoor : Bool) :
    List CatCollider :=
  let minY := gy + 1/50
  let maxY := gy + doorH
  let worldZ := gz + zLocal
  if hasDoor = false then
    [catAddCollider roomId roomIndex gx worldZ w wallThickness minY maxY]
  else
    let segmentWidth := max (9/50) ((w - doorW) * (1/2))
    let leftCenter := -doorW * (1/2) - segmentWidth * (1/2)
    let rightCenter := doorW * (1/2) + segmentWidth * (1/2)
    [catAddCollider roomId roomIndex (gx + leftCenter) worldZ
       segmentWidth wallThickness minY maxY,
     catAddCollider roomId roomIndex (gx + rightCenter) worldZ
       segmentWidth wallThickness minY maxY]

/-- The colliders `CatalogRoomSystem.createRoomShell(roomId, config, roomIndex,
totalRooms)` pushes for one room shell, in push order: the outer side wall,
then the two depth walls (back at `-depth/2` with a connector doorway iff a
later room exists, front at `+depth/2` with a doorway iff an earlier room
exists). -/
def createRoomShellColliders (roomId : RoomId) (cfg : CatRoomCfg)
    (roomIndex totalRooms : ℕ) : List CatCollider :=
  let size := cfg.size.getD ⟨8, 4.6, 9.6⟩
  let wallThickness : ℚ := 21/50
  let origin := cfg.origin.getD ⟨0, 0, 0⟩
  let stepv := cfg.expansionStep.getD ⟨0, 0, -(size.d + 11/5)⟩
  let gx := origin.x + stepv.x * (roomIndex : ℚ)
  let gy := origin.y + stepv.y * (roomIndex : ℚ)
  let gz := origin.z + stepv.z * (roomIndex : ℚ)
  let outer := catAddCollider roomId roomIndex
    (gx + (if roomId = .shop then -size.w * (1/2) else size.w * (1/2))) gz
    wallThickness size.d (gy + 1/50) (gy + size.h - 1/25)
  let doorW := jsClamp (nvl cfg.connectorDoorWidth (12/5)) (7/5) (size.w - 1)
  let doorH := jsClamp (nvl cfg.connectorDoorHeight 3) 2 (size.h - 2/5)
  let needsFrontConnector := decide (0 < roomIndex)
  let needsBackConnector := decide (roomIndex < totalRooms - 1)
  [outer] ++
    shellDepthWallColliders roomId roomIndex gx gy gz size.w doorW doorH
      wallThickness (-size.d * (1/2)) needsBackConnector ++
    shellDepthWallColliders roomId roomIndex gx gy gz size.w doorW doorH
      wallThickness (size.d * (1/2)) needsFrontConnector

/-! ## Apply-token race machine (CatalogRoomSystem.applyTheme / buildRoomCards /
createCard)

JS runs single-threaded between `await`s, so a theme application is a sequence
of atomic segments separated by suspension points.  The machine below has one
scheduler step per segment, with the segment boundaries a superset of the real
ones (`await createCard`, `await cache.loadTexture`, `await buildRoomCards`):
extra yield points only enlarge the set of interleavings, so safety over this
machine covers every real schedule.  Registry entries carry the ghost token of
the application that committed them (in the source the provenance is the object
identity); collider counts and slot-pool lengths are scheduler-chosen
parameters, which only generalizes the config-derived values. -/

/-- Interaction-target entry (`this.targets`): its room plus the ghost apply
token of the application that pushed it. -/
structure TEntry where
  room : RoomId
  token : ℕ
deriving DecidableEq

/-- Catalog collider entry (`this.colliders`): its room plus the ghost apply
token of the reconciliation that pushed it. -/
structure CEntry where
  room : RoomId
  token : ℕ
deriving DecidableEq

/-- Suspension state of one `applyTheme` invocation:
`running room slots items` — about to run the next `buildRoomCards` loop
iteration for `room` (resumption of `await createCard`);
`awaiting room slots items card` — suspended inside `createCard` at
`await this.cache.loadTexture(item.image)`, the card's synchronous resources
already built;
`shopDone` — `buildRoomCards("shop", ...)` returned, about to run the
`applyTheme` token check and then `buildRoomCards("projects", ...)`. -/
inductive TaskPhase
  | running (room : RoomId) (slots : ℕ) (items : List CatalogItem)
  | awaiting (room : RoomId) (slots : ℕ) (items : List CatalogItem) (card : ℕ)
  | shopDone
deriving DecidableEq

/-- One pending `applyTheme` invocation: its captured token, the parameters of
its pending projects phase (filtered items, slot-pool length, collider count of
the reconcile), and its suspension state. -/
structure CatTask where
  token : ℕ
  projItems : List CatalogItem
  projSlots : ℕ
  projCols : ℕ
  phase : TaskPhase
deriving DecidableEq

/-- Shared state of the `CatalogRoomSystem` relevant to token safety, plus the
ghost fields `ownerShop`/`ownerProj` (token of the last application that ran
`clearRoomCards` + `reconcileRoomCount` for that room), a card-id allocator and
the log of disposed in-flight cards. -/
structure CatState where
  applyToken : ℕ
  ownerShop : ℕ
  ownerProj : ℕ
  targets : List TEntry
  colliders : List CEntry
  nextCard : ℕ
  disposed : List ℕ
  tasks : List CatTask
deriving DecidableEq

/-- Ghost owner of a room's registry entries. -/
def ownerOf (s : CatState) : RoomId → ℕ
  | .shop => s.ownerShop
  | .projects => s.ownerProj

/-- The synchronous prefix of `buildRoomCards(room, themeSpec, token)`:
`clearRoomCards(room)` filters the target list by room, and
`reconcileRoomCount` replaces the room's colliders (`cols` fresh entries). -/
def reconcile (r : RoomId) (t cols : ℕ) (s : CatState) : CatState :=
  { s with
    targets := s.targets.filter (fun e => e.room ≠ r),
    colliders := s.colliders.filter (fun c => c.room ≠ r) ++ List.replicate cols ⟨r, t⟩,
    ownerShop := if r = .shop then t else s.ownerShop,
    ownerProj := if r = .projects then t else s.ownerProj }

/-- Scheduler parameters of one `applyTheme` call: per room the filtered item
list, the slot-pool length, and the number of colliders its reconcile pushes. -/
structure SpawnArgs where
  shopItems : List CatalogItem
  shopSlots : ℕ
  shopCols : ℕ
  projItems : List CatalogItem
  projSlots : ℕ
  projCols : ℕ
deriving DecidableEq

/-- `applyTheme(themeName)` up to its first suspension:
`const token = ++this.applyToken`, then the synchronous prefix of
`buildRoomCards("shop", ...)`; the task then yields before its first loop
iteration. -/
def spawnTask (a : SpawnArgs) (s : CatState) : CatState :=
  let t := s.applyToken + 1
  let s1 := reconcile .shop t a.shopCols { s with applyToken := t }
  { s1 with
    tasks := s1.tasks ++
      [⟨t, a.projItems, a.projSlots, a.projCols, .running .shop a.shopSlots a.shopItems⟩] }

/-- Append a continued task (it suspends again and goes back to the pool). -/
def pushTask (s : CatState) (τ : CatTask) : CatState :=
  { s with tasks := s.tasks ++ [τ] }

/-- One atomic segment of the task `τ` (already removed from the pool).

`running` with an empty list: the loop condition fails, `buildRoomCards`
returns; for the shop room `applyTheme` resumes at its token check
(`shopDone`), for projects `applyTheme` completes.

`running` with `item :: rest`: the loop head checks
`token !== this.applyToken` (stale: `buildRoomCards` returns and the
`applyTheme` check also fails — no further effects, the task ends); then
`if (!slot) break`; then the synchronous part of `createCard` builds the card's
scene resources (allocating a ghost card id); with an image the task suspends
at the texture load, otherwise `createCard` commits its target
synchronously and the task suspends at `await createCard`.

`awaiting`: resumption after `await cache.loadTexture`; on a stale token the
card is disposed (`cleanupCard`) and nothing is committed (`createCard` returns
false, `buildRoomCards` and `applyTheme` unwind through their failing checks);
on a current token the target is pushed and the loop continues.

`shopDone`: the `applyTheme` check `token !== this.applyToken` (stale: end),
then the synchronous prefix of `buildRoomCards("projects", ...)`. -/
def stepTask (s : CatState) (τ : CatTask) : CatState :=
  match τ.phase with
  | .running r slots items =>
    match items with
    | [] =>
      match r with
      | .shop => pushTask s { τ with phase := .shopDone }
      | .projects => s
    | item :: rest =>
      if τ.token ≠ s.applyToken then s
      else if slots = 0 then
        match r with
        | .shop => pushTask s { τ with phase := .shopDone }
        | .projects => s
      else
        let card := s.nextCard
        let s1 := { s with nextCard := card + 1 }
        if itemHasImage item then
          pushTask s1 { τ with phase := .awaiting r (slots - 1) rest card }
        else
          pushTask { s1 with targets := s1.targets ++ [⟨r, τ.token⟩] }
            { τ with phase := .running r (slots - 1) rest }
  | .awaiting r slots items card =>
    if τ.token ≠ s.applyToken then
      { s with disposed := card :: s.disposed }
    else
      pushTask { s with targets := s.targets ++ [⟨r, τ.token⟩] }
        { τ with phase := .running r slots items }
  | .shopDone =>
    if τ.token ≠ s.applyToken then s
    else
      let s1 := reconcile .projects τ.token τ.projCols s
      pushTask s1 { τ with phase := .running .projects τ.projSlots τ.projItems }

/-- Scheduler action: start a new `applyTheme` call, or resume the pending task
at the given index. -/
inductive CatAct
  | spawn (a : SpawnArgs)
  | resume (i : ℕ)

/-- One scheduler step. -/
def stepCat (s : CatState) : CatAct → CatState
  | .spawn a => spawnTask a s
  | .resume i =>
    match s.tasks[i]? with
    | none => s
    | some τ => stepTask { s with tasks := s.tasks.eraseIdx i } τ

/-- A whole schedule. -/
def runCat (s : CatState) (acts : List CatAct) : CatState :=
  acts.foldl stepCat s

/-- Initial state of a fresh `CatalogRoomSystem` (`applyToken = 0`, empty
registries, no pending application). -/
def initCat : CatState :=
  ⟨0, 0, 0, [], [], 0, [], []⟩

/-- A task that has not yet run the projects reconcile (its shop stage or the
`shopDone` checkpoint). -/
def beforeProjects : TaskPhase → Bool
  | .running .shop _ _ => true
  | .awaiting .shop _ _ _ => true
  | .shopDone => true
  | _ => false

/-- The room whose `buildRoomCards` loop a task is currently inside, if any. -/
def phaseRoom : TaskPhase → Option RoomId
  | .running r _ _ => some r
  | .awaiting r _ _ _ => some r
  | .shopDone => none

/-- Inductive invariant of the machine: registry entries are owned by the last
reconciler of their room; pending tokens never exceed the current token; the
shop owner is always current; the projects owner is current unless the (unique)
current task has not yet reached its projects phase. -/
def catInv (s : CatState) : Prop :=
  (∀ e ∈ s.targets, e.token = ownerOf s e.room) ∧
  (∀ c ∈ s.colliders, c.token = ownerOf s c.room) ∧
  (∀ τ ∈ s.tasks, τ.token ≤ s.applyToken) ∧
  s.ownerShop = s.applyToken ∧
  (s.ownerProj = s.applyToken ∨
    ∃ τ ∈ s.tasks, τ.token = s.applyToken ∧ beforeProjects τ.phase = true) ∧
  (s.tasks.filter (fun τ => decide (τ.token = s.applyToken))).length ≤ 1

/-! ## Proofs -/

/-! ### Collision resolver (claims C3, C10) -/

theorem min4_eq_left_iff (a b c d : ℚ) :
    min (min (min a b) c) d = a ↔ a ≤ b ∧ a ≤ c ∧ a ≤ d := by
  constructor
  · intro h
    refine ⟨?_, ?_, ?_⟩
    · calc a = min (min (min a b) c) d := h.symm
        _ ≤ min (min a b) c := min_le_left _ _
        _ ≤ min a b := min_le_left _ _
        _ ≤ b := min_le_right _ _
    · calc a = min (min (min a b) c) d := h.symm
        _ ≤ min (min a b) c := min_le_left _ _
        _ ≤ c := min_le_right _ _
    · calc a = min (min (min a b) c) d := h.symm
        _ ≤ d := min_le_right _ _
  · rintro ⟨h1, h2, h3⟩
    rw [min_eq_left h1, min_eq_left h2, min_eq_left h3]

theorem min3_eq_left_iff (a b c : ℚ) :
    min (min a b) c = a ↔ a ≤ b ∧ a ≤ c := by
  constructor
  · intro h
    refine ⟨?_, ?_⟩
    · calc a = min (min a b) c := h.symm
        _ ≤ min a b := min_le_left _ _
        _ ≤ b := min_le_right _ _
    · calc a = min (min a b) c := h.symm
        _ ≤ c := min_le_right _ _
  · rintro ⟨h1, h2⟩
    rw [min_eq_left h1, min_eq_left h2]

theorem min4_drop_first (a b c d : ℚ) (h : ¬(a ≤ b ∧ a ≤ c ∧ a ≤ d)) :
    min (min (min a b) c) d = min (min b c) d := by
  have hrw : min (min (min a b) c) d = min a (min (min b c) d) := by
    rw [min_assoc a b c, min_assoc a (min b c) d]
  rw [hrw]
  apply min_eq_right
  rcases not_and_or.mp h with hb | hcd
  · exact le_trans (le_trans (min_le_left _ _) (min_le_left _ _)) (le_of_lt (not_le.mp hb))
  · rcases not_and_or.mp hcd with hc | hd
    · exact le_trans (le_trans (min_le_left _ _) (min_le_right _ _)) (le_of_lt (not_le.mp hc))
    · exact le_trans (min_le_right _ _) (le_of_lt (not_le.mp hd))

theorem min3_drop_first (b c d : ℚ) (h : ¬(b ≤ c ∧ b ≤ d)) :
    min (min b c) d = min c d := by
  rw [min_assoc b c d]
  apply min_eq_right
  rcases not_and_or.mp h with hc | hd
  · exact le_trans (min_le_left _ _) (le_of_lt (not_le.mp hc))
  · exact le_trans (min_le_right _ _) (le_of_lt (not_le.mp hd))

theorem resolveOne_eq_snap (p : V3) (radius : ℚ) (c : JCollider) :
    resolveOne p radius c = snapNearestEdgeSpec p radius c := by
  unfold resolveOne snapNearestEdgeSpec
  dsimp only
  set a := |p.x - (nvl c.minX 0 - radius)| with ha
  set b := |nvl c.maxX 0 + radius - p.x| with hb
  set e := |p.z - (nvl c.minZ 0 - radius)| with he
  set f := |nvl c.maxZ 0 + radius - p.z| with hf
  by_cases h1 : a ≤ b ∧ a ≤ e ∧ a ≤ f
  · rw [if_pos ((min4_eq_left_iff a b e f).mpr h1), if_pos h1]
  · rw [if_neg (fun hh => h1 ((min4_eq_left_iff a b e f).mp hh)), if_neg h1,
      min4_drop_first a b e f h1]
    by_cases h2 : b ≤ e ∧ b ≤ f
    · rw [if_pos ((min3_eq_left_iff b e f).mpr h2), if_pos h2]
    · rw [if_neg (fun hh => h2 ((min3_eq_left_iff b e f).mp hh)), if_neg h2,
        min3_drop_first b e f h2]
      by_cases h3 : e ≤ f
      · rw [if_pos (min_eq_left h3), if_pos h3]
      · have hfe : min e f = f := min_eq_right (le_of_lt (not_le.mp h3))
        rw [if_neg (fun hh => (ne_of_lt (not_le.mp h3)) (hfe ▸ hh)), if_neg h3]

theorem resolveScanStep_eq_spec (radius sampleY : ℚ) (acc : V3 × ℕ)
    (oc : Option JCollider) :
    resolveScanStep radius sampleY acc oc = resolveScanStepSpec radius sampleY acc oc := by
  cases oc with
  | none => rfl
  | some c =>
    show (if c.enabled = false then acc
      else if colliderInYRange sampleY c = false then acc
      else if isInsideExpandedBox acc.1 radius c = false then acc
      else (resolveOne acc.1 radius c, acc.2 + 1)) =
      (if c.enabled = false then acc
      else if colliderInYRange sampleY c = false then acc
      else if isInsideExpandedBox acc.1 radius c = false then acc
      else (snapNearestEdgeSpec acc.1 radius c, acc.2 + 1))
    rw [resolveOne_eq_snap]

theorem resolvePass_eq_spec (radius sampleY : ℚ) (colliders : List (Option JCollider))
    (p : V3) :
    resolvePass radius sampleY colliders p = resolvePassSpec radius sampleY colliders p := by
  unfold resolvePass resolvePassSpec
  apply List.foldl_ext
  intro acc oc _
  exact resolveScanStep_eq_spec radius sampleY acc oc

theorem resolveLoop_eq_spec (radius sampleY : ℚ) (colliders : List (Option JCollider)) :
    ∀ (fuel : ℕ) (p : V3) (hits : ℕ),
      resolveLoop radius sampleY colliders fuel p hits =
        resolveLoopSpec radius sampleY colliders fuel p hits := by
  intro fuel
  induction fuel with
  | zero => intro p hits; rfl
  | succ n ih =>
    intro p hits
    unfold resolveLoop resolveLoopSpec
    dsimp only
    rw [resolvePass_eq_spec]
    by_cases h : (resolvePassSpec radius sampleY colliders p).2 = 0
    · rw [if_pos h, if_pos h]
    · rw [if_neg h, if_neg h, ih]

theorem resolveScanStep_of_outside (radius sampleY : ℚ) (p : V3)
    (oc : Option JCollider)
    (h : ∀ c, oc = some c → isInsideExpandedBox p radius c = false) :
    resolveScanStep radius sampleY (p, 0) oc = (p, 0) := by
  cases oc with
  | none => rfl
  | some c =>
    show (if c.enabled = false then ((p, 0) : V3 × ℕ)
      else if colliderInYRange sampleY c = false then (p, 0)
      else if isInsideExpandedBox (p, 0).1 radius c = false then (p, 0)
      else (resolveOne (p, 0).1 radius c, (p, 0).2 + 1)) = (p, 0)
    by_cases h1 : c.enabled = false
    · rw [if_pos h1]
    · rw [if_neg h1]
      by_cases h2 : colliderInYRange sampleY c = false
      · rw [if_pos h2]
      · rw [if_neg h2, if_pos (h c rfl)]

theorem resolvePass_of_outside (radius sampleY : ℚ) (p : V3)
    (colliders : List (Option JCollider))
    (h : ∀ c ∈ colliders.filterMap id, isInsideExpandedBox p radius c = false) :
    resolvePass radius sampleY colliders p = (p, 0) := by
  unfold resolvePass
  induction colliders with
  | nil => rfl
  | cons oc rest ih =>
    rw [List.foldl_cons,
      resolveScanStep_of_outside radius sampleY p oc
        (fun c hc => h c (by rw [hc]; simp [List.filterMap_cons]))]
    exact ih (fun c hc => h c (by cases oc <;> simp [List.filterMap_cons] at hc ⊢ <;> tauto))

/-- Claim C3: `resolvePositionAgainstColliders` performs at most 3 passes with
early exit on a correction-free pass; each pass corrects, for every enabled
collider whose `[minY, maxY]` contains `sampleY`, a position strictly inside
the radius-expanded XZ rectangle by snapping it to the nearest of the four
expanded edges with ties broken in the order X-min, X-max, Z-min, Z-max (first
conjunct: the source resolver coincides with the resolver worded exactly that
way); and a position already outside every expanded rectangle is returned
unchanged with zero hits (second conjunct). -/
theorem resolver_matches_spec_and_outside_noop :
    (∀ (p : V3) (colliders : List (Option JCollider)) (radius sampleY : ℚ),
        resolvePositionAgainstColliders p colliders radius sampleY =
          resolveSpec p colliders radius sampleY) ∧
    (∀ (p : V3) (colliders : List (Option JCollider)) (radius sampleY : ℚ),
        (∀ c ∈ colliders.filterMap id, isInsideExpandedBox p radius c = false) →
        resolvePositionAgainstColliders p colliders radius sampleY = (p, 0)) := by
  constructor
  · intro p colliders radius sampleY
    unfold resolvePositionAgainstColliders resolveSpec
    by_cases h : colliders.isEmpty
    · rw [if_pos h, if_pos h]
    · rw [if_neg h, if_neg h, resolveLoop_eq_spec]
  · intro p colliders radius sampleY h
    unfold resolvePositionAgainstColliders
    by_cases he : colliders.isEmpty
    · rw [if_pos he]
    · rw [if_neg he]
      unfold resolveLoop
      dsimp only
      rw [resolvePass_of_outside radius sampleY p colliders h]
      simp

/-- Witness for C3: a concrete position outside the (radius-expanded) single
collider is returned unchanged. -/
theorem resolver_matches_spec_and_outside_noop_witness :
    resolvePositionAgainstColliders ⟨10, 0, 10⟩
      [some ⟨some 0, some 1, some 0, some 1, none, none, true⟩] (1/2) 0 =
      (⟨10, 0, 10⟩, 0) :=
  resolver_matches_spec_and_outside_noop.2 ⟨10, 0, 10⟩
    [some ⟨some 0, some 1, some 0, some 1, none, none, true⟩] (1/2) 0 (by
      intro c hc
      simp only [List.filterMap_cons, id, List.filterMap_nil, List.mem_cons,
        List.not_mem_nil, or_false] at hc
      subst hc
      norm_num [isInsideExpandedBox, nvl])

theorem resolveOne_y (p : V3) (radius : ℚ) (c : JCollider) :
    (resolveOne p radius c).y = p.y := by
  unfold resolveOne
  dsimp only
  split_ifs <;> rfl

theorem resolveScan_foldl_y (radius sampleY : ℚ) :
    ∀ (colliders : List (Option JCollider)) (acc : V3 × ℕ),
      (colliders.foldl (resolveScanStep radius sampleY) acc).1.y = acc.1.y := by
  intro colliders
  induction colliders with
  | nil => intro acc; rfl
  | cons oc rest ih =>
    intro acc
    rw [List.foldl_cons, ih]
    cases oc with
    | none => rfl
    | some c =>
      show (if c.enabled = false then acc
        else if colliderInYRange sampleY c = false then acc
        else if isInsideExpandedBox acc.1 radius c = false then acc
        else ((resolveOne acc.1 radius c, acc.2 + 1) : V3 × ℕ)).1.y = acc.1.y
      split_ifs <;> simp [resolveOne_y]

theorem resolveLoop_y (radius sampleY : ℚ) (colliders : List (Option JCollider)) :
    ∀ (fuel : ℕ) (p : V3) (hits : ℕ),
      (resolveLoop radius sampleY colliders fuel p hits).1.y = p.y := by
  intro fuel
  induction fuel with
  | zero => intro p hits; rfl
  | succ n ih =>
    intro p hits
    unfold resolveLoop
    dsimp only
    split_ifs
    · rfl
    · rw [ih]
      exact resolveScan_foldl_y radius sampleY colliders (p, 0)

/-- Claim C10: the resolver mutates only the x and z components of the
position; the y component and the collider list (with every collider in it)
are unchanged.  The source assigns only `position.x` / `position.z`, so the
store embedding passes the collider list through untouched, and the y
component is preserved through every pass. -/
theorem resolver_frame_effect :
    ∀ (s : ResolveStore) (radius sampleY : ℚ),
      (resolveStore s radius sampleY).1.colliders = s.colliders ∧
      (resolveStore s radius sampleY).1.position.y = s.position.y ∧
      (resolvePositionAgainstColliders s.position s.colliders radius sampleY).1.y =
        s.position.y := by
  intro s radius sampleY
  refine ⟨rfl, ?_, ?_⟩ <;>
  · show (resolvePositionAgainstColliders s.position s.colliders radius sampleY).1.y =
      s.position.y
    unfold resolvePositionAgainstColliders
    split_ifs
    · rfl
    · exact resolveLoop_y radius sampleY s.colliders 3 s.position 0

/-! ### Navigation bounds (claims C4, C5) -/

theorem validBounds_defaultRoomRect (size : Size3) (hw : 14/5 < size.w)
    (hd : 14/5 < size.d) : validBounds (defaultRoomRect size (7/5)) := by
  have hw0 : ¬ size.w = 0 := by intro h; rw [h] at hw; norm_num at hw
  have hd0 : ¬ size.d = 0 := by intro h; rw [h] at hd; norm_num at hd
  unfold defaultRoomRect validBounds jsOr
  dsimp only
  rw [if_neg hw0, if_neg hd0]
  constructor <;> dsimp only <;> linarith

theorem getRoomBounds_of_valid (size : Size3) (margin : ℚ) (b : Bounds)
    (hb : validBounds b) : getRoomBounds size margin (some b) = b := by
  show (if b.minX < b.maxX ∧ b.minZ < b.maxZ then b else defaultRoomRect size margin) = b
  obtain ⟨h1, h2⟩ := hb
  rw [if_pos (⟨h1, h2⟩ : b.minX < b.maxX ∧ b.minZ < b.maxZ)]

theorem validBounds_foldl_merge (L : List Bounds) :
    ∀ (b : Bounds), validBounds b → validBounds (L.foldl mergeBounds b) := by
  induction L with
  | nil => intro b hb; exact hb
  | cons x rest ih =>
    intro b hb
    rw [List.foldl_cons]
    apply ih
    unfold mergeBounds validBounds
    dsimp only
    constructor
    · exact lt_of_le_of_lt (min_le_left _ _) (lt_of_lt_of_le hb.1 (le_max_left _ _))
    · exact lt_of_le_of_lt (min_le_left _ _) (lt_of_lt_of_le hb.2 (le_max_left _ _))

/-- Claim C4, amended: positive size components alone do not give valid bounds
(see the counterexample below); whenever the room's width and depth exceed
twice the 1.4 navigation margin, every recomputation path — initial load and
`setRoomBounds` (both `getRoomBounds` with arbitrary override) and
`applyThemeFloorplan` / `resetThemeFloorplan` (both `applyFloorplanBounds`) —
produces bounds with `minX < maxX` and `minZ < maxZ`. -/
theorem roomBounds_valid_of_wide_size :
    ∀ (size : Size3), 14/5 < size.w → 14/5 < size.d →
      (∀ override, validBounds (getRoomBounds size (7/5) override)) ∧
      (∀ (baseOverride : Option Bounds) (baseL themeL : List Bounds)
        (tf : Option ThemeFloorplanCfg),
        validBounds (applyFloorplanBounds size (getRoomBounds size (7/5) baseOverride)
          baseL themeL tf)) := by
  intro size hw hd
  have hget : ∀ override, validBounds (getRoomBounds size (7/5) override) := by
    intro o
    cases o with
    | none => exact validBounds_defaultRoomRect size hw hd
    | some b =>
      show validBounds
        (if b.minX < b.maxX ∧ b.minZ < b.maxZ then b else defaultRoomRect size (7/5))
      by_cases hb : b.minX < b.maxX ∧ b.minZ < b.maxZ
      · rw [if_pos hb]; exact hb
      · rw [if_neg hb]; exact validBounds_defaultRoomRect size hw hd
  refine ⟨hget, ?_⟩
  intro baseOverride baseL themeL tf
  have hform : ∃ o, applyFloorplanBounds size (getRoomBounds size (7/5) baseOverride)
      baseL themeL tf = getRoomBounds size (7/5) o := by
    unfold applyFloorplanBounds
    cases explicitOverride tf with
    | some b => exact ⟨some b, rfl⟩
    | none =>
      refine ⟨some ((if (tf.bind ThemeFloorplanCfg.extendNavigation) ≠ some false
        then themeL.foldl mergeBounds (baseL.foldl mergeBounds
          (getRoomBounds size (7/5) baseOverride))
        else baseL.foldl mergeBounds (getRoomBounds size (7/5) baseOverride))), ?_⟩
      dsimp only
      by_cases hext : (tf.bind ThemeFloorplanCfg.extendNavigation) ≠ some false
      · rfl
      · rfl
  obtain ⟨o, ho⟩ := hform
  rw [ho]
  exact hget o

/-- Witness for the amended C4 at the repository's default room size. -/
theorem roomBounds_valid_of_wide_size_witness :
    validBounds (getRoomBounds ⟨30, 8, 30⟩ (7/5) none) :=
  (roomBounds_valid_of_wide_size ⟨30, 8, 30⟩ (by norm_num) (by norm_num)).1 none

/-- Counterexample to C4 as stated: the room size `[2, 8, 2]` has positive
components, yet the initial-load recomputation
(`getRoomBounds(size, 1.4, null)`) yields `minX = 0.4 > maxX = -0.4`. -/
theorem roomBounds_positive_size_counterexample :
    (0 : ℚ) < 2 ∧ (0 : ℚ) < 8 ∧
      ¬ validBounds (getRoomBounds ⟨2, 8, 2⟩ (7/5) none) := by
  refine ⟨by norm_num, by norm_num, ?_⟩
  norm_num [getRoomBounds, defaultRoomRect, jsOr, validBounds]

/-- Claim C5: with an explicit theme bounds override
(`navigationProfile.bounds || navigationBounds`), `applyFloorplanBounds` uses
it verbatim after the validity check of `getRoomBounds` and performs no union;
otherwise it folds `mergeBounds` over the base-floorplan annex rectangles
(always) and the theme-floorplan annex rectangles (unless
`extendNavigation === false`) starting from the primary room rectangle; and
`mergeBounds` is the component-wise min of minima and max of maxima. -/
theorem applyFloorplanBounds_override_or_union :
    ∀ (size : Size3) (baseRoom : Bounds) (baseL themeL : List Bounds)
      (tf : Option ThemeFloorplanCfg),
      (∀ b, explicitOverride tf = some b →
        applyFloorplanBounds size baseRoom baseL themeL tf =
          getRoomBounds size (7/5) (some b) ∧
        (validBounds b → applyFloorplanBounds size baseRoom baseL themeL tf = b)) ∧
      (explicitOverride tf = none → validBounds baseRoom →
        applyFloorplanBounds size baseRoom baseL themeL tf =
          (baseL ++ (if (tf.bind ThemeFloorplanCfg.extendNavigation) ≠ some false
            then themeL else [])).foldl mergeBounds baseRoom) ∧
      (∀ a b : Bounds, mergeBounds a b =
        ⟨min a.minX b.minX, max a.maxX b.maxX, min a.minZ b.minZ, max a.maxZ b.maxZ⟩) := by
  intro size baseRoom baseL themeL tf
  refine ⟨?_, ?_, fun a b => rfl⟩
  · intro b hb
    have heq : applyFloorplanBounds size baseRoom baseL themeL tf =
        getRoomBounds size (7/5) (some b) := by
      unfold applyFloorplanBounds
      rw [hb]
      rfl
    refine ⟨heq, fun hvb => ?_⟩
    rw [heq, getRoomBounds_of_valid size (7/5) b hvb]
  · intro hnone hvb
    unfold applyFloorplanBounds
    rw [hnone]
    dsimp only
    by_cases hext : (tf.bind ThemeFloorplanCfg.extendNavigation) ≠ some false
    · rw [if_pos hext, if_pos hext, List.foldl_append]
      exact getRoomBounds_of_valid size (7/5) _
        (validBounds_foldl_merge themeL _ (validBounds_foldl_merge baseL baseRoom hvb))
    · rw [if_neg hext, if_neg hext, List.append_nil]
      exact getRoomBounds_of_valid size (7/5) _
        (validBounds_foldl_merge baseL baseRoom hvb)

/-- Witness for C5: a concrete union (no explicit override, one base annex). -/
theorem applyFloorplanBounds_override_or_union_witness :
    applyFloorplanBounds ⟨30, 8, 30⟩ ⟨-5, 5, -5, 5⟩ [⟨-6, 6, -6, 6⟩] [] none =
      (([⟨-6, 6, -6, 6⟩] : List Bounds) ++
        (if (Option.bind (none : Option ThemeFloorplanCfg)
            ThemeFloorplanCfg.extendNavigation) ≠ some false
          then ([] : List Bounds) else [])).foldl mergeBounds ⟨-5, 5, -5, 5⟩ :=
  (applyFloorplanBounds_override_or_union ⟨30, 8, 30⟩ ⟨-5, 5, -5, 5⟩
    [⟨-6, 6, -6, 6⟩] [] none).2.1 rfl (by norm_num [validBounds])

/-! ### Annex walls and protected zones (claim C6) -/

theorem mem_addColliderRect (L : List SceneCollider)
    (cx cz sx sz mnY mxY : ℚ) (tag id : String) (c : SceneCollider)
    (hm : c ∈ addColliderRect L cx cz sx sz mnY mxY tag id) :
    c ∈ L ∨ (c = ⟨tag, id, cx - sx * (1/2), cx + sx * (1/2),
      cz - sz * (1/2), cz + sz * (1/2), mnY, mxY⟩ ∧ 0 < sx ∧ 0 < sz) := by
  unfold addColliderRect at hm
  split_ifs at hm with h
  · exact Or.inl hm
  · rcases List.mem_append.mp hm with hL | hone
    · exact Or.inl hL
    · right
      rw [not_or, not_le, not_le] at h
      exact ⟨List.mem_singleton.mp hone, h.1, h.2⟩

theorem annexWidth_pos (cfg : AnnexCfg) : 0 < annexWidth cfg :=
  lt_of_lt_of_le (by norm_num) (le_max_left _ _)

theorem annexDepth_pos (cfg : AnnexCfg) : 0 < annexDepth cfg :=
  lt_of_lt_of_le (by norm_num) (le_max_left _ _)

theorem createAnnexStep_kept (cfg : AnnexCfg) (index : ℕ) (tag : String)
    (zones : List Bounds) (floorY tw : ℚ) (htw : 0 < tw)
    (acc : List String × List SceneCollider) (side : String) :
    createAnnexStep cfg index tag zones floorY tw acc side =
      (if annexWallKept cfg zones tw side then
        (acc.1 ++ [side], acc.2 ++ [annexSideCollider cfg index tag floorY tw side])
      else acc) := by
  unfold createAnnexStep
  by_cases h1 : side = normalizeOpenSide cfg.openSide
  · rw [if_pos h1]
    have hk : annexWallKept cfg zones tw side = false := by
      unfold annexWallKept
      rw [decide_eq_true h1]
      rfl
    rw [hk]
    rfl
  · rw [if_neg h1]
    by_cases h2 : zones.any (fun z => boundsOverlap2D (annexWallRect cfg tw side) z) = true
    · rw [if_pos h2]
      have hk : annexWallKept cfg zones tw side = false := by
        unfold annexWallKept
        rw [decide_eq_false h1, h2]
        rfl
      rw [hk]
      rfl
    · rw [if_neg h2]
      have hk : annexWallKept cfg zones tw side = true := by
        unfold annexWallKept
        rw [decide_eq_false h1, Bool.eq_false_iff.mpr h2]
        rfl
      rw [hk, if_pos rfl]
      dsimp only
      unfold addColliderRect annexSideCollider
      have hw := annexWidth_pos cfg
      have hd := annexDepth_pos cfg
      split_ifs <;> try rfl
      all_goals
        exfalso
        rename_i hgeo
        rcases hgeo with hx | hx <;> dsimp only at hx <;> linarith

theorem createAnnexFold (cfg : AnnexCfg) (index : ℕ) (tag : String)
    (zones : List Bounds) (floorY tw : ℚ) (htw : 0 < tw) :
    ∀ (sides : List String) (acc : List String × List SceneCollider),
      sides.foldl (createAnnexStep cfg index tag zones floorY tw) acc =
        (acc.1 ++ sides.filter (annexWallKept cfg zones tw),
         acc.2 ++ (sides.filter (annexWallKept cfg zones tw)).map
           (annexSideCollider cfg index tag floorY tw)) := by
  intro sides
  induction sides with
  | nil => intro acc; simp
  | cons s rest ih =>
    intro acc
    rw [List.foldl_cons, createAnnexStep_kept cfg index tag zones floorY tw htw acc s, ih]
    by_cases hk : annexWallKept cfg zones tw s = true
    · rw [if_pos hk, List.filter_cons_of_pos hk]
      simp
    · rw [if_neg hk, List.filter_cons_of_neg (by simpa using hk)]

theorem createAnnex_walls_eq (cfg : AnnexCfg) (index : ℕ) (tag : String)
    (zones : List Bounds) (floorY tw : ℚ) (htw : 0 < tw) :
    (createAnnex cfg index tag zones floorY tw).walls =
      (["north", "south", "east", "west"] : List String).filter
        (annexWallKept cfg zones tw) := by
  unfold createAnnex
  rw [createAnnexFold cfg index tag zones floorY tw htw]
  rfl

theorem createAnnex_colliders_eq (cfg : AnnexCfg) (index : ℕ) (tag : String)
    (zones : List Bounds) (floorY tw : ℚ) (htw : 0 < tw) :
    (createAnnex cfg index tag zones floorY tw).colliders =
      ((["north", "south", "east", "west"] : List String).filter
        (annexWallKept cfg zones tw)).map
        (annexSideCollider cfg index tag floorY tw) := by
  unfold createAnnex
  rw [createAnnexFold cfg index tag zones floorY tw htw]
  rfl

/-- Scenario B configuration: annex with `openSide: "west"`, default size and
position, and one protected zone overlapping its north wall only. -/
theorem scenarioB_kept :
    annexWallKept ⟨none, none, none, some "west", none, true⟩
        [⟨-1, 1, -43/10, -41/10⟩] (1/2) "north" = false ∧
    annexWallKept ⟨none, none, none, some "west", none, true⟩
        [⟨-1, 1, -43/10, -41/10⟩] (1/2) "south" = true ∧
    annexWallKept ⟨none, none, none, some "west", none, true⟩
        [⟨-1, 1, -43/10, -41/10⟩] (1/2) "east" = true ∧
    annexWallKept ⟨none, none, none, some "west", none, true⟩
        [⟨-1, 1, -43/10, -41/10⟩] (1/2) "west" = false := by
  have hrectN : annexWallRect ⟨none, none, none, some "west", none, true⟩ (1/2) "north" =
      ⟨-4, 4, -17/4, -15/4⟩ := by
    unfold annexWallRect
    rw [if_pos rfl]
    norm_num [annexWidth, annexDepth, annexCenter, jsOr, Option.getD, max_def,
      Bounds.mk.injEq]
  have hrectS : annexWallRect ⟨none, none, none, some "west", none, true⟩ (1/2) "south" =
      ⟨-4, 4, 15/4, 17/4⟩ := by
    unfold annexWallRect
    rw [if_neg (by decide), if_pos rfl]
    norm_num [annexWidth, annexDepth, annexCenter, jsOr, Option.getD, max_def,
      Bounds.mk.injEq]
  have hrectE : annexWallRect ⟨none, none, none, some "west", none, true⟩ (1/2) "east" =
      ⟨15/4, 17/4, -4, 4⟩ := by
    unfold annexWallRect
    rw [if_neg (by decide), if_neg (by decide), if_pos rfl]
    norm_num [annexWidth, annexDepth, annexCenter, jsOr, Option.getD, max_def,
      Bounds.mk.injEq]
  have hside : normalizeOpenSide (some "west") = "west" := by decide
  refine ⟨?_, ?_, ?_, ?_⟩
  · unfold annexWallKept
    rw [hside, hrectN]
    have : boundsOverlap2D (⟨-4, 4, -17/4, -15/4⟩ : Bounds) ⟨-1, 1, -43/10, -41/10⟩ = true := by
      simp only [boundsOverlap2D, Bool.and_eq_true, decide_eq_true_eq]
      norm_num
    simp [this]
  · unfold annexWallKept
    rw [hside, hrectS]
    have hov : boundsOverlap2D (⟨-4, 4, 15/4, 17/4⟩ : Bounds) ⟨-1, 1, -43/10, -41/10⟩ =
        false := by
      have hcmp : ¬ ((15 : ℚ)/4 ≤ -41/10) := by norm_num
      simp [boundsOverlap2D, decide_eq_false hcmp]
    simp [hov]
  · unfold annexWallKept
    rw [hside, hrectE]
    have hov : boundsOverlap2D (⟨15/4, 17/4, -4, 4⟩ : Bounds) ⟨-1, 1, -43/10, -41/10⟩ =
        false := by
      have hcmp : ¬ ((15 : ℚ)/4 ≤ 1) := by norm_num
      simp [boundsOverlap2D, decide_eq_false hcmp]
    simp [hov]
  · unfold annexWallKept
    rw [hside]
    rfl

/-- Claim C6: for a configured annex, the wall equal to the (normalized)
`openSide` is never built; each of the other candidate walls is omitted exactly
when its thin collider rectangle 2D-overlaps some protected zone; every
surviving wall registers exactly one collider carrying the caller-supplied tag
(first part, with positive wall thickness for the collider correspondence); and
the concrete Scenario B — `openSide: "west"` with a protected zone overlapping
the north wall — builds exactly the south and east walls (second part; the
source builds them in the call order north, south, east, west, hence the list
order south, east). -/
theorem annex_walls_openSide_and_zones :
    (∀ (cfg : AnnexCfg) (index : ℕ) (tag : String) (zones : List Bounds)
      (floorY tw : ℚ), 0 < tw →
      (∀ side, side ∈ (createAnnex cfg index tag zones floorY tw).walls ↔
        (side ∈ (["north", "south", "east", "west"] : List String) ∧
          side ≠ normalizeOpenSide cfg.openSide ∧
          zones.any (fun z => boundsOverlap2D (annexWallRect cfg tw side) z) = false)) ∧
      (createAnnex cfg index tag zones floorY tw).colliders =
        ((createAnnex cfg index tag zones floorY tw).walls).map
          (annexSideCollider cfg index tag floorY tw) ∧
      (∀ c ∈ (createAnnex cfg index tag zones floorY tw).colliders, c.tag = tag)) ∧
    (createAnnex ⟨none, none, none, some "west", none, true⟩ 0 "floorplan-theme"
      [⟨-1, 1, -43/10, -41/10⟩] 0 (1/2)).walls = ["south", "east"] := by
  constructor
  · intro cfg index tag zones floorY tw htw
    refine ⟨?_, ?_, ?_⟩
    · intro side
      rw [createAnnex_walls_eq cfg index tag zones floorY tw htw, List.mem_filter]
      unfold annexWallKept
      constructor
      · rintro ⟨hmem, hk⟩
        simp only [Bool.and_eq_true, Bool.not_eq_true', decide_eq_false_iff_not] at hk
        exact ⟨hmem, hk.1, hk.2⟩
      · rintro ⟨hmem, h1, h2⟩
        refine ⟨hmem, ?_⟩
        simp only [Bool.and_eq_true, Bool.not_eq_true', decide_eq_false_iff_not]
        exact ⟨h1, h2⟩
    · rw [createAnnex_colliders_eq cfg index tag zones floorY tw htw,
        createAnnex_walls_eq cfg index tag zones floorY tw htw]
    · intro c hc
      rw [createAnnex_colliders_eq cfg index tag zones floorY tw htw] at hc
      rcases List.mem_map.mp hc with ⟨side, _, hside⟩
      rw [← hside]
      rfl
  · rw [createAnnex_walls_eq _ 0 "floorplan-theme" _ 0 (1/2) (by norm_num)]
    obtain ⟨hn, hs, he, hw⟩ := scenarioB_kept
    simp only [List.filter_cons, List.filter_nil, hn, hs, he, hw]
    simp

/-- Witness for C6: the collider correspondence of the theorem applied at the
Scenario B configuration. -/
theorem annex_walls_openSide_and_zones_witness :
    (createAnnex ⟨none, none, none, some "west", none, true⟩ 0 "floorplan-theme"
        [⟨-1, 1, -43/10, -41/10⟩] 0 (1/2)).colliders =
      ((createAnnex ⟨none, none, none, some "west", none, true⟩ 0 "floorplan-theme"
        [⟨-1, 1, -43/10, -41/10⟩] 0 (1/2)).walls).map
        (annexSideCollider ⟨none, none, none, some "west", none, true⟩ 0
          "floorplan-theme" 0 (1/2)) :=
  (annex_walls_openSide_and_zones.1 ⟨none, none, none, some "west", none, true⟩ 0
    "floorplan-theme" [⟨-1, 1, -43/10, -41/10⟩] 0 (1/2) (by norm_num)).2.1

/-! ### Front entrance wall (claim C7) -/

theorem buildFrontWall_scenarioA :
    buildFrontWall 10 4 10 0 (1/2) ⟨true, some 4, none, some 0⟩ =
      ([⟨"south_wall_top", 10, 3/5, 0, 37/10, 5⟩,
        ⟨"south_wall_left_panel", 3, 17/5, -7/2, 17/10, 5⟩,
        ⟨"south_wall_right_panel", 3, 17/5, 7/2, 17/10, 5⟩],
       [⟨"room", "south_wall_left", -5, -2, 19/4, 21/4, 1/50, 169/50⟩,
        ⟨"room", "south_wall_right", 2, 5, 19/4, 21/4, 1/50, 169/50⟩]) := by
  unfold buildFrontWall addColliderRect
  norm_num [jsClamp, nvl, max_def, min_def, Prod.ext_iff,
    WallPanel.mk.injEq, SceneCollider.mk.injEq]

/-- Claim C7: for a room of size `[10, 4, 10]` with a front entrance of width 4
centered at `x = 0` (wall thickness 0.5, floor at 0), the front wall is built
as a top lintel plus a left jamb of width 3 and a right jamb of width 3 (first
conjunct), each jamb registering its own collider and nothing else (second
conjunct, spanning `x ∈ [-5, -2]` and `x ∈ [2, 5]`), and no registered collider
of the entrance wall covers any `x` strictly inside `[-2, 2]` (third
conjunct). -/
theorem front_entrance_scenario :
    ((buildFrontWall 10 4 10 0 (1/2) ⟨true, some 4, none, some 0⟩).1.map
      WallPanel.width = [10, 3, 3]) ∧
    ((buildFrontWall 10 4 10 0 (1/2) ⟨true, some 4, none, some 0⟩).2 =
      [⟨"room", "south_wall_left", -5, -2, 19/4, 21/4, 1/50, 169/50⟩,
       ⟨"room", "south_wall_right", 2, 5, 19/4, 21/4, 1/50, 169/50⟩]) ∧
    (∀ x : ℚ, -2 < x → x < 2 →
      ∀ c ∈ (buildFrontWall 10 4 10 0 (1/2) ⟨true, some 4, none, some 0⟩).2,
        ¬ (c.minX ≤ x ∧ x ≤ c.maxX)) := by
  refine ⟨?_, ?_, ?_⟩
  · rw [buildFrontWall_scenarioA]
    norm_num
  · rw [buildFrontWall_scenarioA]
  · intro x hx1 hx2 c hc
    rw [buildFrontWall_scenarioA] at hc
    simp only [List.mem_cons, List.not_mem_nil, or_false] at hc
    rcases hc with hc | hc <;> subst hc <;> rintro ⟨h1, h2⟩ <;>
      dsimp only at h1 h2 <;> linarith

/-- Witness for C7: the left-jamb collider does not cover `x = 0`. -/
theorem front_entrance_scenario_witness :
    ¬ ((⟨"room", "south_wall_left", -5, -2, 19/4, 21/4, 1/50,
        169/50⟩ : SceneCollider).minX ≤ 0 ∧
       (0 : ℚ) ≤ (⟨"room", "south_wall_left", -5, -2, 19/4, 21/4, 1/50,
        169/50⟩ : SceneCollider).maxX) :=
  front_entrance_scenario.2.2 0 (by norm_num) (by norm_num) _
    (by rw [front_entrance_scenario.2.1]; simp)

/-! ### Item filtering (claim C9) -/

/-- Claim C9: with a positive configured maximum, `filterItems` selects by id
intersection when `itemIds` is non-empty, otherwise by case-insensitive shared
tag when `tagsAny` is non-empty, otherwise keeps the whole feed; an empty
selection falls back to the whole feed, and only then is the result truncated
to the maximum; consequently the result is empty iff the raw feed is empty. -/
theorem fallback_ne_nil {α : Type} (sel items : List α) (hne : items ≠ []) :
    (if sel.isEmpty then items else sel) ≠ [] := by
  by_cases hs : sel.isEmpty
  · rw [if_pos hs]; exact hne
  · rw [if_neg hs]
    intro h
    rw [h] at hs
    exact hs rfl

theorem filterItems_selection_and_empty_iff :
    ∀ (items : List CatalogItem) (f : ItemFilter) (m : ℕ), 0 < m →
      (f.itemIds.getD [] ≠ [] →
        filterItems items f (some m) =
          (let sel := items.filter (fun it => (f.itemIds.getD []).contains it.id)
           (if sel.isEmpty then items else sel).take m)) ∧
      (f.itemIds.getD [] = [] → f.tagsAny.getD [] ≠ [] →
        filterItems items f (some m) =
          (let sel := items.filter (fun it => it.tags.any (fun tg =>
            ((f.tagsAny.getD []).map jsToLower).contains (jsToLower tg)))
           (if sel.isEmpty then items else sel).take m)) ∧
      (f.itemIds.getD [] = [] → f.tagsAny.getD [] = [] →
        filterItems items f (some m) = items.take m) ∧
      (filterItems items f (some m) = [] ↔ items = []) := by
  intro items f m hm
  refine ⟨?_, ?_, ?_, ?_⟩
  · intro hne
    by_cases hempty : items = []
    · subst hempty
      simp [filterItems]
    · have hemptyF : items.isEmpty = false := by
        cases h : items.isEmpty
        · rfl
        · exact absurd (List.isEmpty_iff.mp h) hempty
      have hidsF : (f.itemIds.getD []).isEmpty = false := by
        cases h : f.itemIds.getD [] with
        | nil => exact absurd h hne
        | cons a l => rfl
      unfold filterItems
      simp only [hemptyF, hidsF, Bool.false_eq_true, if_false, eq_self_iff_true,
        if_true, hm, if_pos]
  · intro hid hne
    by_cases hempty : items = []
    · subst hempty
      simp [filterItems]
    · have hemptyF : items.isEmpty = false := by
        cases h : items.isEmpty
        · rfl
        · exact absurd (List.isEmpty_iff.mp h) hempty
      have htagF : (f.tagsAny.getD []).isEmpty = false := by
        cases h : f.tagsAny.getD [] with
        | nil => exact absurd h hne
        | cons a l => rfl
      unfold filterItems
      simp only [hid, hemptyF, htagF, List.isEmpty_nil, Bool.false_eq_true,
        Bool.true_eq_false, if_false, eq_self_iff_true, if_true, hm, if_pos]
  · intro hid htag
    by_cases hempty : items = []
    · subst hempty
      simp [filterItems]
    · have hemptyF : items.isEmpty = false := by
        cases h : items.isEmpty
        · rfl
        · exact absurd (List.isEmpty_iff.mp h) hempty
      unfold filterItems
      simp only [hid, htag, hemptyF, List.isEmpty_nil, Bool.false_eq_true,
        Bool.true_eq_false, if_false, eq_self_iff_true, if_true, hm, if_pos,
        ite_self]
  · constructor
    · intro hres
      by_contra hne
      have hemptyF : items.isEmpty = false := by
        cases h : items.isEmpty
        · rfl
        · exact absurd (List.isEmpty_iff.mp h) hne
      unfold filterItems at hres
      simp only [hemptyF, Bool.false_eq_true, if_false, hm, if_pos] at hres
      rw [List.take_eq_nil_iff] at hres
      rcases hres with hres | hres
      · omega
      · exact fallback_ne_nil _ items hne hres
    · intro h
      subst h
      rfl

/-- Witness for C9: a single-item feed with no filter and maximum 3 is returned
whole. -/
theorem filterItems_selection_and_empty_iff_witness :
    filterItems [⟨"a", [], none⟩] ⟨none, none⟩ (some 3) =
      ([⟨"a", [], none⟩] : List CatalogItem).take 3 :=
  (filterItems_selection_and_empty_iff [⟨"a", [], none⟩] ⟨none, none⟩ 3
    (by norm_num)).2.2.1 rfl rfl

/-! ### Catalog capacity and room count (claim C2) -/

theorem roomCount_covers (n cap : ℕ) (hcap : 1 ≤ cap) :
    n ≤ cap * roomCountFor n cap := by
  unfold roomCountFor
  dsimp only
  rw [max_eq_right hcap]
  have hcpos : (0 : ℚ) < (cap : ℚ) := by
    exact_mod_cast Nat.lt_of_lt_of_le Nat.zero_lt_one hcap
  have hle : ((n : ℚ) / (cap : ℚ)) ≤ ((⌈(n : ℚ) / (cap : ℚ)⌉ : ℤ) : ℚ) :=
    Int.le_ceil _
  have hk0 : (0 : ℤ) ≤ ⌈(n : ℚ) / (cap : ℚ)⌉ :=
    Int.ceil_nonneg (div_nonneg (Nat.cast_nonneg n) (le_of_lt hcpos))
  have h1 : (n : ℚ) ≤ (cap : ℚ) * ((⌈(n : ℚ) / (cap : ℚ)⌉ : ℤ) : ℚ) := by
    rw [div_le_iff₀ hcpos] at hle
    linarith
  have hcast : (((⌈(n : ℚ) / (cap : ℚ)⌉).toNat : ℕ) : ℚ) =
      ((⌈(n : ℚ) / (cap : ℚ)⌉ : ℤ) : ℚ) := by
    exact_mod_cast congrArg Int.cast (Int.toNat_of_nonneg hk0)
  have h2 : n ≤ cap * (⌈(n : ℚ) / (cap : ℚ)⌉).toNat := by
    have : (n : ℚ) ≤ ((cap * (⌈(n : ℚ) / (cap : ℚ)⌉).toNat : ℕ) : ℚ) := by
      push_cast
      rw [hcast]
      exact h1
    exact_mod_cast this
  exact le_trans h2 (Nat.mul_le_mul_left cap (le_max_right 1 _))

/-- Claim C2, amended: the inequality
`capacity * roomCount ≥ itemCount` holds for every non-empty filtered item list
provided the per-room capacity is positive; with capacity 0 the code builds
rooms from `safeCapacity = max(1, capacity)` and the product is 0 (see the
counterexample). -/
theorem capacity_roomCount_covers_items :
    ∀ (roomId : RoomId) (cfg : CatRoomCfg) (n : ℕ),
      1 ≤ computeRoomCapacity roomId cfg → 1 ≤ n →
      n ≤ computeRoomCapacity roomId cfg *
        roomCountFor n (computeRoomCapacity roomId cfg) :=
  fun _ _ n hcap _ => roomCount_covers n _ hcap

/-- The default shop room configuration has per-room capacity 12 (4 slots on
each of the back, outer and front walls). -/
theorem computeRoomCapacity_default :
    computeRoomCapacity .shop ⟨none, none, none, none, none, none, none⟩ = 12 := by
  unfold computeRoomCapacity computeWallSlots buildLine
  norm_num [orDefault, nvl, jsOr, max_def, Int.floor_eq_iff]
  decide

/-- Witness for the amended C2: 7 items in the default shop room configuration
(capacity 12) fit into `12 * roomCount`. -/
theorem capacity_roomCount_covers_items_witness :
    (7 : ℕ) ≤ computeRoomCapacity .shop ⟨none, none, none, none, none, none, none⟩ *
      roomCountFor 7 (computeRoomCapacity .shop
        ⟨none, none, none, none, none, none, none⟩) :=
  capacity_roomCount_covers_items .shop ⟨none, none, none, none, none, none, none⟩ 7
    (by rw [computeRoomCapacity_default]; norm_num) (by norm_num)

/-- Counterexample to C2 as stated: a room of size `[1, 3, 1]` (walls shorter
than twice the 0.7 wall margin) has capacity 0, and with one filtered item
`capacity * roomCount = 0 < 1`; the claim's universally quantified inequality
fails at this configuration. -/
theorem capacity_roomCount_counterexample :
    computeRoomCapacity .shop ⟨some ⟨1, 3, 1⟩, none, none, none, none, none, none⟩ = 0 ∧
    ¬ ((1 : ℕ) ≤ computeRoomCapacity .shop
        ⟨some ⟨1, 3, 1⟩, none, none, none, none, none, none⟩ *
      roomCountFor 1 (computeRoomCapacity .shop
        ⟨some ⟨1, 3, 1⟩, none, none, none, none, none, none⟩)) := by
  have hcap : computeRoomCapacity .shop
      ⟨some ⟨1, 3, 1⟩, none, none, none, none, none, none⟩ = 0 := by
    unfold computeRoomCapacity computeWallSlots buildLine
    norm_num [orDefault, nvl, jsOr, max_def, Int.floor_eq_iff]
  refine ⟨hcap, ?_⟩
  rw [hcap]
  simp

/-! ### Collider validity (claim C8) -/

theorem validCatCollider_mk (roomId : RoomId) (roomIndex : ℕ)
    (cx cz sx sz mnY mxY : ℚ) (hsx : 0 < sx) (hsz : 0 < sz) (hy : mnY ≤ mxY) :
    validCatCollider (catAddCollider roomId roomIndex cx cz sx sz mnY mxY) := by
  unfold validCatCollider catAddCollider
  refine ⟨by dsimp only; linarith, by dsimp only; linarith, by dsimp only; linarith⟩

theorem shellDepthWall_valid (roomId : RoomId) (roomIndex : ℕ)
    (gx gy gz w doorW doorH wallThickness zLocal : ℚ) (hasDoor : Bool)
    (hw : 0 < w) (htw : 0 < wallThickness) (hdoor : 1/50 ≤ doorH) :
    ∀ c ∈ shellDepthWallColliders roomId roomIndex gx gy gz w doorW doorH
      wallThickness zLocal hasDoor, validCatCollider c := by
  intro c hc
  unfold shellDepthWallColliders at hc
  dsimp only at hc
  split_ifs at hc
  · rw [List.mem_singleton] at hc
    subst hc
    exact validCatCollider_mk _ _ _ _ _ _ _ _ hw htw (by linarith)
  · have hseg : (0 : ℚ) < max (9/50) ((w - doorW) * (1/2)) :=
      lt_of_lt_of_le (by norm_num) (le_max_left _ _)
    simp only [List.mem_cons, List.not_mem_nil, or_false] at hc
    rcases hc with hc | hc <;> subst hc <;>
      exact validCatCollider_mk _ _ _ _ _ _ _ _ hseg htw (by linarith)

/-- Claim C8, amended: the scene layout's `addColliderRect` silently rejects
zero-area rectangles (first conjunct) and every collider it does insert has
`minX < maxX` and `minZ < maxZ` (second conjunct); the catalog system's
`addCollider` has no such guard, and the colliders `createRoomShell` pushes
satisfy the full invariant (positive XZ extents and `minY ≤ maxY`) only under
the size hypotheses width > 0, depth > 0 and height ≥ 0.06 (third conjunct) —
a zero-depth catalog room really does insert a zero-area collider (see the
counterexample). -/
theorem collider_invariant_amended :
    (∀ (L : List SceneCollider) (cx cz sx sz mnY mxY : ℚ) (tag id : String),
      sx ≤ 0 ∨ sz ≤ 0 → addColliderRect L cx cz sx sz mnY mxY tag id = L) ∧
    (∀ (L : List SceneCollider) (cx cz sx sz mnY mxY : ℚ) (tag id : String),
      ∀ c ∈ addColliderRect L cx cz sx sz mnY mxY tag id,
        c ∈ L ∨ (c.minX < c.maxX ∧ c.minZ < c.maxZ)) ∧
    (∀ (roomId : RoomId) (cfg : CatRoomCfg) (roomIndex totalRooms : ℕ),
      0 < (cfg.size.getD ⟨8, 4.6, 9.6⟩).w →
      0 < (cfg.size.getD ⟨8, 4.6, 9.6⟩).d →
      3/50 ≤ (cfg.size.getD ⟨8, 4.6, 9.6⟩).h →
      ∀ c ∈ createRoomShellColliders roomId cfg roomIndex totalRooms,
        validCatCollider c) := by
  refine ⟨?_, ?_, ?_⟩
  · intro L cx cz sx sz mnY mxY tag id h
    unfold addColliderRect
    rw [if_pos h]
  · intro L cx cz sx sz mnY mxY tag id c hc
    rcases mem_addColliderRect L cx cz sx sz mnY mxY tag id c hc with hL | ⟨hceq, hsx, hsz⟩
    · exact Or.inl hL
    · right
      subst hceq
      constructor <;> dsimp only <;> linarith
  · intro roomId cfg roomIndex totalRooms hw hd hh c hc
    unfold createRoomShellColliders at hc
    dsimp only at hc
    have hdoorH : (2 : ℚ) ≤ jsClamp (nvl cfg.connectorDoorHeight 3)
        2 ((cfg.size.getD ⟨8, 4.6, 9.6⟩).h - 2/5) := by
      unfold jsClamp
      exact le_max_left _ _
    rcases List.mem_append.mp hc with hc1 | hcf
    · rcases List.mem_append.mp hc1 with hco | hcb
      · rw [List.mem_singleton] at hco
        subst hco
        exact validCatCollider_mk _ _ _ _ _ _ _ _ (by norm_num) hd (by linarith)
      · exact shellDepthWall_valid _ _ _ _ _ _ _ _ _ _ _ hw (by norm_num)
          (by linarith) c hcb
    · exact shellDepthWall_valid _ _ _ _ _ _ _ _ _ _ _ hw (by norm_num)
        (by linarith) c hcf

/-- Witness for the amended C8: a degenerate rectangle (zero X size) is
rejected by `addColliderRect`. -/
theorem collider_invariant_amended_witness :
    addColliderRect [] 0 0 0 1 0 1 "room" "degenerate" = [] :=
  collider_invariant_amended.1 [] 0 0 0 1 0 1 "room" "degenerate"
    (Or.inl (by norm_num))

/-- The room shell colliders of a zero-depth catalog room: the outer wall
collider degenerates to `minZ = maxZ = 0`. -/
theorem createRoomShellColliders_zero_depth :
    createRoomShellColliders .shop
        ⟨some ⟨5, 3, 0⟩, none, none, none, none, none, none⟩ 0 1 =
      [⟨.shop, 0, -271/100, -229/100, 0, 0, 1/50, 74/25⟩,
       ⟨.shop, 0, -5/2, 5/2, -21/100, 21/100, 1/50, 13/5⟩,
       ⟨.shop, 0, -5/2, 5/2, -21/100, 21/100, 1/50, 13/5⟩] := by
  unfold createRoomShellColliders shellDepthWallColliders catAddCollider
  norm_num [jsClamp, nvl, jsOr, max_def, min_def, CatCollider.mk.injEq]

/-- Counterexample to C8 as stated: for a catalog room config of size
`[5, 3, 0]`, `createRoomShell` pushes (through the guard-free `addCollider`) an
outer-wall collider with `sizeZ = 0` (`minZ = maxZ = 0`): zero-area segments
are not skipped on the catalog side. -/
theorem collider_invariant_counterexample :
    ¬ (∀ c ∈ createRoomShellColliders .shop
        ⟨some ⟨5, 3, 0⟩, none, none, none, none, none, none⟩ 0 1,
        validCatCollider c) := by
  intro h
  have hc := h ⟨.shop, 0, -271/100, -229/100, 0, 0, 1/50, 74/25⟩
    (by rw [createRoomShellColliders_zero_depth]; simp)
  exact absurd hc.2.1 (by norm_num)

/-! ### Apply-token race safety (claim C1) -/

theorem two_mem_le_length {α : Type} {l : List α} {a b : α}
    (ha : a ∈ l) (hb : b ∈ l) (hne : a ≠ b) : 2 ≤ l.length := by
  match l with
  | [] => cases ha
  | [x] =>
    rw [List.mem_singleton] at ha hb
    exact absurd (ha.trans hb.symm) hne
  | x :: y :: rest => simp only [List.length_cons]; omega

theorem filter_eraseIdx_le (l : List CatTask) (i : ℕ) (p : CatTask → Bool) :
    ((l.eraseIdx i).filter p).length ≤ (l.filter p).length :=
  ((l.eraseIdx_sublist i).filter p).length_le

theorem getElem?_decomp {α : Type} (l : List α) (i : ℕ) (a : α)
    (h : l[i]? = some a) :
    l = l.take i ++ a :: l.drop (i + 1) ∧ l.eraseIdx i = l.take i ++ l.drop (i + 1) := by
  have hi : i < l.length := by
    by_contra hge
    rw [List.getElem?_eq_none (le_of_not_lt hge)] at h
    cases h
  have hget : l[i] = a := by
    have := List.getElem?_eq_getElem hi
    rw [h] at this
    exact (Option.some_inj.mp this).symm
  constructor
  · conv_lhs => rw [← List.take_append_drop i l]
    rw [List.drop_eq_getElem_cons hi, hget]
  · rw [List.eraseIdx_eq_take_drop_succ]

theorem mem_of_getElem?_cat {α : Type} {l : List α} {i : ℕ} {a : α}
    (h : l[i]? = some a) : a ∈ l := by
  rw [(getElem?_decomp l i a h).1]
  exact List.mem_append.mpr (Or.inr (List.mem_cons_self _ _))

theorem mem_eraseIdx_of_ne {α : Type} {l : List α} {i : ℕ} {a b : α}
    (h : l[i]? = some a) (hb : b ∈ l) (hne : b ≠ a) : b ∈ l.eraseIdx i := by
  obtain ⟨hdec, herase⟩ := getElem?_decomp l i a h
  rw [herase]
  rw [hdec] at hb
  rcases List.mem_append.mp hb with h1 | h2
  · exact List.mem_append.mpr (Or.inl h1)
  · rcases List.mem_cons.mp h2 with h3 | h4
    · exact absurd h3 hne
    · exact List.mem_append.mpr (Or.inr h4)

theorem filter_eraseIdx_push (l : List CatTask) (i : ℕ) (τ τ' : CatTask)
    (p : CatTask → Bool) (h : l[i]? = some τ) (hp : p τ' = p τ) :
    ((l.eraseIdx i ++ [τ']).filter p).length = (l.filter p).length := by
  obtain ⟨hdec, herase⟩ := getElem?_decomp l i τ h
  rw [herase]
  conv_rhs => rw [hdec]
  simp only [List.filter_append, List.length_append, List.filter_cons, List.filter]
  cases hcase : p τ
  · rw [hp, hcase]
    simp [List.length_append]
  · rw [hp, hcase]
    simp [List.length_append]
    omega

theorem catInv_init : catInv initCat := by
  unfold catInv initCat
  refine ⟨?_, ?_, ?_, rfl, Or.inl rfl, ?_⟩ <;> first
    | (intro x hx; cases hx)
    | simp

theorem owner_eq_of_current (s : CatState) (i : ℕ) (τ : CatTask) (r : RoomId)
    (hτ : s.tasks[i]? = some τ) (h : catInv s) (hcur : τ.token = s.applyToken)
    (hr : phaseRoom τ.phase = some r) : ownerOf s r = τ.token := by
  obtain ⟨h1, h2, h3, h4, h5, h6⟩ := h
  cases r with
  | shop =>
    show s.ownerShop = τ.token
    rw [h4, hcur]
  | projects =>
    show s.ownerProj = τ.token
    rcases h5 with h5 | ⟨τ'', hmem, htok'', hbp⟩
    · rw [h5, hcur]
    · by_cases heq : τ'' = τ
      · exfalso
        subst heq
        cases hph : τ''.phase with
        | running r' slots items =>
          rw [hph] at hr hbp
          simp only [phaseRoom, Option.some_inj] at hr
          subst hr
          simp [beforeProjects] at hbp
        | awaiting r' slots items card =>
          rw [hph] at hr hbp
          simp only [phaseRoom, Option.some_inj] at hr
          subst hr
          simp [beforeProjects] at hbp
        | shopDone =>
          rw [hph] at hr
          simp [phaseRoom] at hr
      · exfalso
        have hmemτ : τ ∈ s.tasks := mem_of_getElem?_cat hτ
        have haf : τ ∈ s.tasks.filter (fun x => decide (x.token = s.applyToken)) :=
          List.mem_filter.mpr ⟨hmemτ, by simp [hcur]⟩
        have hbf : τ'' ∈ s.tasks.filter (fun x => decide (x.token = s.applyToken)) :=
          List.mem_filter.mpr ⟨hmem, by simp [htok'']⟩
        have := two_mem_le_length hbf haf heq
        omega

theorem catInv_spawn (a : SpawnArgs) (s : CatState) (h : catInv s) :
    catInv (spawnTask a s) := by
  obtain ⟨h1, h2, h3, h4, h5, h6⟩ := h
  have hs' : spawnTask a s =
      { applyToken := s.applyToken + 1,
        ownerShop := s.applyToken + 1,
        ownerProj := s.ownerProj,
        targets := s.targets.filter (fun e => e.room ≠ RoomId.shop),
        colliders := s.colliders.filter (fun c => c.room ≠ RoomId.shop) ++
          List.replicate a.shopCols ⟨.shop, s.applyToken + 1⟩,
        nextCard := s.nextCard,
        disposed := s.disposed,
        tasks := s.tasks ++ [⟨s.applyToken + 1, a.projItems, a.projSlots, a.projCols,
          .running .shop a.shopSlots a.shopItems⟩] } := by
    unfold spawnTask reconcile
    dsimp only
    rw [if_pos rfl, if_neg (by decide)]
  rw [hs']
  refine ⟨?_, ?_, ?_, rfl, ?_, ?_⟩
  · intro e hmem
    rw [List.mem_filter] at hmem
    obtain ⟨hm, hr⟩ := hmem
    rw [decide_eq_true_eq] at hr
    have he := h1 e hm
    cases hroom : e.room with
    | shop => exact absurd hroom hr
    | projects =>
      rw [hroom] at he
      exact he
  · intro c hmem
    rcases List.mem_append.mp hmem with hm | hm
    · rw [List.mem_filter] at hm
      obtain ⟨hm, hr⟩ := hm
      rw [decide_eq_true_eq] at hr
      have hc := h2 c hm
      cases hroom : c.room with
      | shop => exact absurd hroom hr
      | projects =>
        rw [hroom] at hc
        exact hc
    · have := List.eq_of_mem_replicate hm
      subst this
      rfl
  · intro τ hmem
    rcases List.mem_append.mp hmem with hm | hm
    · exact le_trans (h3 τ hm) (Nat.le_succ _)
    · rw [List.mem_singleton] at hm
      subst hm
      exact le_refl _
  · exact Or.inr ⟨⟨s.applyToken + 1, a.projItems, a.projSlots, a.projCols,
      .running .shop a.shopSlots a.shopItems⟩,
      List.mem_append.mpr (Or.inr (List.mem_singleton.mpr rfl)), rfl, rfl⟩
  · rw [List.filter_append]
    have hnil : s.tasks.filter (fun τ => decide (τ.token = s.applyToken + 1)) = [] := by
      rw [List.filter_eq_nil_iff]
      intro τ hmem
      have := h3 τ hmem
      simp only [decide_eq_true_eq]
      omega
    rw [hnil]
    simp

theorem catInv_erase (s : CatState) (i : ℕ) (τ : CatTask)
    (hτ : s.tasks[i]? = some τ) (h : catInv s)
    (hnb : τ.token ≠ s.applyToken ∨ beforeProjects τ.phase = false) :
    catInv { s with tasks := s.tasks.eraseIdx i } := by
  obtain ⟨h1, h2, h3, h4, h5, h6⟩ := h
  refine ⟨h1, h2, ?_, h4, ?_, ?_⟩
  · intro τ' hmem
    exact h3 τ' ((s.tasks.eraseIdx_sublist i).subset hmem)
  · rcases h5 with h5 | ⟨τ'', hmem, htok, hbp⟩
    · exact Or.inl h5
    · by_cases heq : τ'' = τ
      · exfalso
        subst heq
        rcases hnb with hnb | hnb
        · exact hnb htok
        · rw [hbp] at hnb
          cases hnb
      · exact Or.inr ⟨τ'', mem_eraseIdx_of_ne hτ hmem heq, htok, hbp⟩
  · exact le_trans (filter_eraseIdx_le s.tasks i _) h6

theorem catInv_replace (s : CatState) (i : ℕ) (τ τ' : CatTask)
    (newTargets : List TEntry)
    (hτ : s.tasks[i]? = some τ) (htok : τ'.token = τ.token)
    (hkeep : beforeProjects τ.phase = true → beforeProjects τ'.phase = true)
    (hnew : ∀ e ∈ newTargets, e.token = ownerOf s e.room)
    (h : catInv s) :
    catInv { s with tasks := s.tasks.eraseIdx i ++ [τ'],
                    targets := s.targets ++ newTargets } := by
  obtain ⟨h1, h2, h3, h4, h5, h6⟩ := h
  refine ⟨?_, h2, ?_, h4, ?_, ?_⟩
  · intro e hmem
    rcases List.mem_append.mp hmem with hm | hm
    · exact h1 e hm
    · exact hnew e hm
  · intro τ₂ hmem
    rcases List.mem_append.mp hmem with hm | hm
    · exact h3 τ₂ ((s.tasks.eraseIdx_sublist i).subset hm)
    · rw [List.mem_singleton] at hm
      subst hm
      rw [htok]
      exact h3 τ (mem_of_getElem?_cat hτ)
  · rcases h5 with h5 | ⟨τ'', hmem, htok'', hbp⟩
    · exact Or.inl h5
    · by_cases heq : τ'' = τ
      · subst heq
        exact Or.inr ⟨τ', List.mem_append.mpr (Or.inr (List.mem_singleton.mpr rfl)),
          by rw [htok]; exact htok'', hkeep hbp⟩
      · exact Or.inr ⟨τ'', List.mem_append.mpr
          (Or.inl (mem_eraseIdx_of_ne hτ hmem heq)), htok'', hbp⟩
  · rw [filter_eraseIdx_push s.tasks i τ τ' _ hτ (by rw [htok])]
    exact h6

theorem catInv_reconcileProjects (s : CatState) (i : ℕ) (τ τ' : CatTask)
    (cols : ℕ) (hτ : s.tasks[i]? = some τ) (hcur : τ.token = s.applyToken)
    (htok : τ'.token = τ.token) (h : catInv s) :
    catInv (pushTask (reconcile .projects τ.token cols
      { s with tasks := s.tasks.eraseIdx i }) τ') := by
  obtain ⟨h1, h2, h3, h4, h5, h6⟩ := h
  have hstate : pushTask (reconcile .projects τ.token cols
      { s with tasks := s.tasks.eraseIdx i }) τ' =
      { applyToken := s.applyToken,
        ownerShop := s.ownerShop,
        ownerProj := τ.token,
        targets := s.targets.filter (fun e => e.room ≠ RoomId.projects),
        colliders := s.colliders.filter (fun c => c.room ≠ RoomId.projects) ++
          List.replicate cols ⟨.projects, τ.token⟩,
        nextCard := s.nextCard,
        disposed := s.disposed,
        tasks := s.tasks.eraseIdx i ++ [τ'] } := by
    unfold pushTask reconcile
    dsimp only
    rw [if_neg (by decide), if_pos rfl]
  rw [hstate]
  refine ⟨?_, ?_, ?_, h4, Or.inl hcur, ?_⟩
  · intro e hmem
    rw [List.mem_filter] at hmem
    obtain ⟨hm, hr⟩ := hmem
    rw [decide_eq_true_eq] at hr
    have he := h1 e hm
    cases hroom : e.room with
    | projects => exact absurd hroom hr
    | shop =>
      rw [hroom] at he
      exact he
  · intro c hmem
    rcases List.mem_append.mp hmem with hm | hm
    · rw [List.mem_filter] at hm
      obtain ⟨hm, hr⟩ := hm
      rw [decide_eq_true_eq] at hr
      have hc := h2 c hm
      cases hroom : c.room with
      | projects => exact absurd hroom hr
      | shop =>
        rw [hroom] at hc
        exact hc
    · have := List.eq_of_mem_replicate hm
      subst this
      rfl
  · intro τ₂ hmem
    rcases List.mem_append.mp hmem with hm | hm
    · exact h3 τ₂ ((s.tasks.eraseIdx_sublist i).subset hm)
    · rw [List.mem_singleton] at hm
      subst hm
      rw [htok]
      exact h3 τ (mem_of_getElem?_cat hτ)
  · rw [filter_eraseIdx_push s.tasks i τ τ' _ hτ (by rw [htok])]
    exact h6

theorem catInv_stepTask (s : CatState) (i : ℕ) (τ : CatTask)
    (hτ : s.tasks[i]? = some τ) (h : catInv s) :
    catInv (stepTask { s with tasks := s.tasks.eraseIdx i } τ) := by
  cases hph : τ.phase with
  | running r slots items =>
    unfold stepTask
    rw [hph]
    cases items with
    | nil =>
      cases r with
      | shop =>
        dsimp only
        have := catInv_replace s i τ { τ with phase := .shopDone } []
          hτ rfl (fun _ => rfl) (fun e he => absurd he (List.not_mem_nil e)) h
        simpa [List.append_nil, pushTask] using this
      | projects =>
        dsimp only
        exact catInv_erase s i τ hτ h (Or.inr (by rw [hph]; rfl))
    | cons it rest =>
      dsimp only
      by_cases hcur : τ.token = s.applyToken
      case neg =>
        rw [if_pos (by simpa using hcur)]
        exact catInv_erase s i τ hτ h (Or.inl hcur)
      case pos =>
        rw [if_neg (by simpa using hcur)]
        by_cases hslots : slots = 0
        · rw [if_pos hslots]
          cases r with
          | shop =>
            have := catInv_replace s i τ { τ with phase := .shopDone } []
              hτ rfl (fun _ => rfl) (fun e he => absurd he (List.not_mem_nil e)) h
            simpa [List.append_nil, pushTask] using this
          | projects =>
            exact catInv_erase s i τ hτ h (Or.inr (by rw [hph]; rfl))
        · rw [if_neg hslots]
          by_cases himg : itemHasImage it = true
          · rw [if_pos himg]
            have := catInv_replace s i τ
              { τ with phase := .awaiting r (slots - 1) rest s.nextCard } []
              hτ rfl ?_ (fun e he => absurd he (List.not_mem_nil e)) h
            · simpa [List.append_nil, pushTask] using this
            · intro hb
              rw [hph] at hb
              cases r with
              | shop => rfl
              | projects => simp [beforeProjects] at hb
          · rw [if_neg himg]
            have hown : ownerOf s r = τ.token :=
              owner_eq_of_current s i τ r hτ h hcur (by rw [hph]; rfl)
            have := catInv_replace s i τ
              { τ with phase := .running r (slots - 1) rest }
              [⟨r, τ.token⟩] hτ rfl ?_ ?_ h
            · simpa [pushTask] using this
            · intro hb
              rw [hph] at hb
              cases r with
              | shop => rfl
              | projects => simp [beforeProjects] at hb
            · intro e he
              rw [List.mem_singleton] at he
              subst he
              exact hown.symm
  | awaiting r slots items card =>
    unfold stepTask
    rw [hph]
    dsimp only
    by_cases hcur : τ.token = s.applyToken
    case neg =>
      rw [if_pos (by simpa using hcur)]
      exact catInv_erase s i τ hτ h (Or.inl hcur)
    case pos =>
      rw [if_neg (by simpa using hcur)]
      have hown : ownerOf s r = τ.token :=
        owner_eq_of_current s i τ r hτ h hcur (by rw [hph]; rfl)
      have := catInv_replace s i τ
        { τ with phase := .running r slots items }
        [⟨r, τ.token⟩] hτ rfl ?_ ?_ h
      · simpa [pushTask] using this
      · intro hb
        rw [hph] at hb
        cases r with
        | shop => rfl
        | projects => simp [beforeProjects] at hb
      · intro e he
        rw [List.mem_singleton] at he
        subst he
        exact hown.symm
  | shopDone =>
    unfold stepTask
    rw [hph]
    dsimp only
    by_cases hcur : τ.token = s.applyToken
    case neg =>
      rw [if_pos (by simpa using hcur)]
      exact catInv_erase s i τ hτ h (Or.inl hcur)
    case pos =>
      rw [if_neg (by simpa using hcur)]
      exact catInv_reconcileProjects s i τ
        { τ with phase := .running .projects τ.projSlots τ.projItems }
        τ.projCols hτ hcur rfl h

theorem catInv_step (s : CatState) (a : CatAct) (h : catInv s) :
    catInv (stepCat s a) := by
  cases a with
  | spawn args => exact catInv_spawn args s h
  | resume i =>
    show catInv (match s.tasks[i]? with
      | none => s
      | some τ => stepTask { s with tasks := s.tasks.eraseIdx i } τ)
    cases hτ : s.tasks[i]? with
    | none => exact h
    | some τ => exact catInv_stepTask s i τ hτ h

theorem catInv_run : ∀ (acts : List CatAct) (s : CatState),
    catInv s → catInv (runCat s acts) := by
  intro acts
  induction acts with
  | nil => intro s h; exact h
  | cons a rest ih =>
    intro s h
    exact ih (stepCat s a) (catInv_step s a h)

/-- Claim C1: over every schedule of `applyTheme` invocations and resumptions
of their suspended segments, once the most recent application has settled (no
pending task carries the current apply token — in particular when everything
has settled), the target list and the collider list contain only entries
committed by the most recent application (first conjunct); and a `createCard`
whose texture await resolves under a stale token disposes its card and commits
nothing: the step leaves the target and collider lists untouched and only logs
the disposal (second conjunct). -/
theorem applyTheme_token_safety :
    (∀ (acts : List CatAct),
      (∀ τ ∈ (runCat initCat acts).tasks,
        τ.token ≠ (runCat initCat acts).applyToken) →
      (∀ e ∈ (runCat initCat acts).targets,
        e.token = (runCat initCat acts).applyToken) ∧
      (∀ c ∈ (runCat initCat acts).colliders,
        c.token = (runCat initCat acts).applyToken)) ∧
    (∀ (s : CatState) (i : ℕ) (τ : CatTask) (r : RoomId) (slots : ℕ)
      (items : List CatalogItem) (card : ℕ),
      s.tasks[i]? = some τ → τ.phase = .awaiting r slots items card →
      τ.token ≠ s.applyToken →
      stepCat s (.resume i) =
        { s with tasks := s.tasks.eraseIdx i, disposed := card :: s.disposed }) := by
  constructor
  · intro acts hsettled
    obtain ⟨h1, h2, h3, h4, h5, h6⟩ := catInv_run acts initCat catInv_init
    have hproj : (runCat initCat acts).ownerProj = (runCat initCat acts).applyToken := by
      rcases h5 with h5 | ⟨τ, hmem, htok, _⟩
      · exact h5
      · exact absurd htok (hsettled τ hmem)
    constructor
    · intro e hmem
      have he := h1 e hmem
      cases hroom : e.room with
      | shop =>
        rw [hroom] at he
        rw [he]
        exact h4
      | projects =>
        rw [hroom] at he
        rw [he]
        exact hproj
    · intro c hmem
      have hc := h2 c hmem
      cases hroom : c.room with
      | shop =>
        rw [hroom] at hc
        rw [hc]
        exact h4
      | projects =>
        rw [hroom] at hc
        rw [hc]
        exact hproj
  · intro s i τ r slots items card hτ hph hstale
    have hred : stepCat s (.resume i) =
        stepTask { s with tasks := s.tasks.eraseIdx i } τ := by
      show (match s.tasks[i]? with
        | none => s
        | some τ => stepTask { s with tasks := s.tasks.eraseIdx i } τ) =
        stepTask { s with tasks := s.tasks.eraseIdx i } τ
      rw [hτ]
    rw [hred]
    unfold stepTask
    rw [hph]
    dsimp only
    rw [if_pos hstale]

/-- Witness for C1: a concrete overlapping schedule — two `applyTheme` calls
with one image-bearing shop item each, the first still awaiting its texture
when the second starts — ends with the single target entry committed by the
second application (token 2); and a concrete stale texture resumption disposes
its card without touching the registries. -/
theorem applyTheme_token_safety_witness :
    ((⟨.shop, 2⟩ : TEntry).token =
      (runCat initCat
        [.spawn ⟨[⟨"a", [], some "img"⟩], 1, 1, [], 1, 1⟩,
         .spawn ⟨[⟨"a", [], some "img"⟩], 1, 1, [], 1, 1⟩,
         .resume 0, .resume 0, .resume 0, .resume 0, .resume 0,
         .resume 0]).applyToken) ∧
    (stepCat ⟨2, 2, 0, [], [], 5, [],
        [⟨1, [], 0, 0, .awaiting .shop 0 [] 7⟩]⟩ (.resume 0) =
      { (⟨2, 2, 0, [], [], 5, [],
          [⟨1, [], 0, 0, .awaiting .shop 0 [] 7⟩]⟩ : CatState) with
        tasks := (⟨2, 2, 0, [], [], 5, [],
          [⟨1, [], 0, 0, .awaiting .shop 0 [] 7⟩]⟩ : CatState).tasks.eraseIdx 0,
        disposed := 7 :: (⟨2, 2, 0, [], [], 5, [],
          [⟨1, [], 0, 0, .awaiting .shop 0 [] 7⟩]⟩ : CatState).disposed }) :=
  ⟨(applyTheme_token_safety.1
      [.spawn ⟨[⟨"a", [], some "img"⟩], 1, 1, [], 1, 1⟩,
       .spawn ⟨[⟨"a", [], some "img"⟩], 1, 1, [], 1, 1⟩,
       .resume 0, .resume 0, .resume 0, .resume 0, .resume 0, .resume 0]
      (by decide)).1 ⟨.shop, 2⟩ (by decide),
   applyTheme_token_safety.2
     ⟨2, 2, 0, [], [], 5, [], [⟨1, [], 0, 0, .awaiting .shop 0 [] 7⟩]⟩ 0
     ⟨1, [], 0, 0, .awaiting .shop 0 [] 7⟩ .shop 0 [] 7 rfl rfl (by decide)⟩

end Lobby
